import Mathlib

/-!
# Subprocess lifecycle manager (`source/ipc.cpp`)

A shallow embedding of `Process::Start`, `Process::Kill`, `Process::_wait_proc`
and `Process::_close_fd`.  The operating system is an explicit input: every
result an OS call hands back (`pipe`, `fork`, `exec`, `kill`, `waitpid`, the
clock, `strerror`) is a field of an environment record, and every call that
touches a descriptor, a process, a thread or a stream object is appended to an
event list, in program order.
-/

namespace Ipc

/-- File descriptors are C `int`s. -/
abbrev Fd := Int

/-- The signal number of `SIGKILL`. -/
def SIGKILL : Int := 9

/-- Slot of standard input. -/
def STDIN_FILENO : Fd := 0

/-- Slot of standard output. -/
def STDOUT_FILENO : Fd := 1

/-- Slot of standard error. -/
def STDERR_FILENO : Fd := 2

/-- The type of `Process::info`.  Its declaration lives in `header/ipc`; the
fields are the ones `ipc.cpp` reads, under the names it reads them by. -/
structure ProcessConfig where
  ProcessPath : String
  ProcessName : Option String
  Arguments : Array String
  RedirectStandardInput : Bool
  RedirectStandardOutput : Bool
  RedirectStandardError : Bool
  UsePathEnv : Bool
  deriving DecidableEq, Repr

/-- Modelled from the spec: the `Pipe` value type is declared in `header/ipc`,
which is not among the sources.  The spec describes it as the read and write
descriptor pair of one OS pipe; `Pipe(a)` takes them from `a[0]` and `a[1]`. -/
structure Pipe where
  readEnd : Fd
  writeEnd : Fd
  deriving DecidableEq, Repr

/-- A `std::ofdstream` object: an output stream bound to one descriptor. -/
structure ofdstream where
  fd : Fd
  deriving DecidableEq, Repr

/-- A `std::ifdstream` object: an input stream bound to one descriptor, with
the stream it is tied to (flushed before each read), if any. -/
structure ifdstream where
  fd : Fd
  tie : Option ofdstream
  deriving DecidableEq, Repr

/-- The three stream pointers `_inp`, `_out`, `_err` of a `Process`. -/
inductive Slot
  | inp
  | out
  | err
  deriving DecidableEq, Repr

/-- State of the `std::thread wait_thread` member.  `empty` is a thread object
that is not joinable; `running` is a joinable thread whose body `_wait_proc`
has not finished; `finished` is a joinable thread whose body has returned. -/
inductive Thread
  | empty
  | running
  | finished
  deriving DecidableEq, Repr

/-- What a `const char*` holds: the null pointer, a pointer at a live
NUL-terminated string with the given characters, or a pointer into the
storage of a string object that has been destroyed since (`was` is what the
storage held while the object lived). -/
inductive CharPtr
  | null
  | live (text : List Char)
  | dangling (was : List Char)
  deriving DecidableEq, Repr

/-- The characters that `s.c_str()` points at: those of `s` before its first
NUL character. -/
def c_str (s : String) : List Char :=
  s.toList.takeWhile (fun c => c ≠ Char.ofNat 0)

/-- The content of an array entry that was never written: the null pointer or
a pointer at some text. -/
def CharPtr.ofJunk : Option String → CharPtr
  | none => CharPtr.null
  | some s => CharPtr.live s.toList

/-- Calls made by the program, in program order. -/
inductive Event
  | pipe (result : Option (Fd × Fd))
  | newStream (s : Slot) (fd : Fd)
  | deleteStream (s : Slot)
  | tieStreams
  | fork (result : Int)
  | dup2 (oldfd : Fd) (newfd : Fd)
  | close (fd : Fd)
  | exec (usePath : Bool) (path : List Char) (argv : Array CharPtr)
  | threadStart
  | join
  | terminate
  | kill (pid : Int) (sig : Int)
  deriving DecidableEq, Repr

/-- The mutable aggregate.  `in_`, `out`, `err` are the `int[2]` arrays
(`in` is a reserved word); a pointer member is `none` when null. -/
structure Process where
  info : ProcessConfig
  pid : Int
  _stat : Int
  _exc : Option Int
  _sig : Option Int
  fail : Bool
  reason : String
  in_ : Fd × Fd
  out : Fd × Fd
  err : Fd × Fd
  _pin : Option Pipe
  _pout : Option Pipe
  _perr : Option Pipe
  _inp : Option ofdstream
  _out : Option ifdstream
  _err : Option ifdstream
  _stt : Option Nat
  _ext : Option Nat
  wait_thread : Thread
  deriving DecidableEq, Repr

/-- Modelled from the spec: the constructor of `Process` is declared in
`header/ipc`, which is not among the sources.  The spec says that a Process is
constructed empty: no outcome, no failure, no pipe, no stream, no background
task.  The identifier and the descriptor arrays hold whatever the constructor
left there, given here as `pid0` and `fds0`. -/
def Process.blank (info : ProcessConfig) (pid0 : Int) (fds0 : Fd × Fd) : Process :=
  { info := info, pid := pid0, _stat := 0, _exc := none, _sig := none,
    fail := false, reason := "", in_ := fds0, out := fds0, err := fds0,
    _pin := none, _pout := none, _perr := none,
    _inp := none, _out := none, _err := none,
    _stt := none, _ext := none, wait_thread := Thread.empty }

/-- Modelled from the spec: the accessor `HasExited()` is declared in
`header/ipc`, which is not among the sources.  The spec says it is true once
the child has reached a terminal outcome, that is once an exit code or a
termination signal has been recorded. -/
def HasExited (p : Process) : Bool :=
  p._exc.isSome || p._sig.isSome

/-- What a call left behind: the object, the calls it made, and whether
control came back to the caller (it does not after a successful `exec`, after
`std::terminate`, or while `join` is still blocked). -/
structure Run where
  proc : Process
  events : List Event
  returned : Bool
  deriving DecidableEq, Repr

/-- The macro `FAIL(r)`: record the failure; the `return` that follows is
the caller's branch ending there. -/
def FAIL (p : Process) (r : String) : Process :=
  { p with fail := true, reason := r }

/-! ### Wait-status macros of `<sys/wait.h>` -/

/-- The macro `WTERMSIG(s)`, which is `s & 0x7f`. -/
def WTERMSIG (s : Int) : Int := s % 128

/-- The macro `WIFEXITED(s)`, which is `WTERMSIG(s) == 0`. -/
def WIFEXITED (s : Int) : Bool := WTERMSIG s == 0

/-- The macro `WEXITSTATUS(s)`, which is `(s & 0xff00) >> 8`. -/
def WEXITSTATUS (s : Int) : Int := (s / 256) % 256

/-- The macro `WIFSIGNALED(s)`, which is
`((signed char) ((s & 0x7f) + 1) >> 1) > 0`. -/
def WIFSIGNALED (s : Int) : Bool :=
  let t := s % 128 + 1
  let sc := if t ≥ 128 then t - 256 else t
  decide (sc / 2 > 0)

/-- The macro `W_EXITCODE(ret, sig)`, which is `(ret << 8) | sig`, the status the kernel
reports for a child that called `exit(ret)` when `sig` is `0`. -/
def W_EXITCODE (ret : Int) (sig : Int) : Int := ret * 256 + sig

/-! ### `Process::_wait_proc` -/

/-- What the OS answers to the reaping task: the successive results of
`waitpid(pid, &_stat, WNOHANG)` (return value, and the value left in `_stat`),
the clock reading and the text of `strerror(errno)`. -/
structure WaitEnv where
  polls : List (Int × Int)
  now : Nat
  errstr : String
  deriving DecidableEq, Repr

/-- Line 13: `while (!(r = waitpid(pid, &_stat, WNOHANG)));`.  The loop ends
at the first answer whose return value is not `0`; `none` when every answer
supplied is `0`, the loop still spinning. -/
def waitLoop : List (Int × Int) → Option (Int × Int)
  | [] => none
  | (r, s) :: rest => if r = 0 then waitLoop rest else some (r, s)

/-- Lines 11-22.  `none` when the polling loop has not ended. -/
def _wait_proc (p : Process) (env : WaitEnv) : Option Process :=
  match waitLoop env.polls with
  | none => none
  | some (r, s) =>
    let p1 := { p with _stat := s, _ext := some env.now }
    if r = -1 then some (FAIL p1 ("Failed on wait. (" ++ env.errstr ++ ")"))
    else if WIFEXITED p1._stat then some { p1 with _exc := some (WEXITSTATUS p1._stat) }
    else if WIFSIGNALED p1._stat then some { p1 with _sig := some (WTERMSIG p1._stat) }
    else some (FAIL p1 "Unknown error on status of child process.")

/-! ### `Process::_close_fd` -/

/-- Lines 24-28.  `delete` and `close` change no member of the object. -/
def _close_fd (p : Process) : List Event :=
  (if p.info.RedirectStandardInput then
    [Event.deleteStream Slot.inp, Event.close p.in_.1, Event.close p.in_.2] else []) ++
  (if p.info.RedirectStandardOutput then
    [Event.deleteStream Slot.out, Event.close p.out.1, Event.close p.out.2] else []) ++
  (if p.info.RedirectStandardError then
    [Event.deleteStream Slot.err, Event.close p.err.1, Event.close p.err.2] else [])

/-! ### `Process::Kill` -/

/-- What the OS answers during `Kill()`: the return value of
`kill(pid, SIGKILL)`, the text of `strerror(errno)`, and the answers the
reaping task gets if `join` has to wait for it. -/
structure KillEnv where
  kill : Int
  errstr : String
  wait : WaitEnv
  deriving DecidableEq, Repr

/-- Line 34: `if (wait_thread.joinable()) wait_thread.join();` followed by
line 36.  Joining a running thread waits for `_wait_proc` to return. -/
def Kill_join (p : Process) (env : KillEnv) (ev : List Event) : Run :=
  match p.wait_thread with
  | Thread.empty => ⟨p, ev ++ _close_fd p, true⟩
  | Thread.finished =>
    let p1 := { p with wait_thread := Thread.empty }
    ⟨p1, ev ++ [Event.join] ++ _close_fd p1, true⟩
  | Thread.running =>
    match _wait_proc p env.wait with
    | none => ⟨p, ev ++ [Event.join], false⟩
    | some p1 =>
      let p2 := { p1 with wait_thread := Thread.empty }
      ⟨p2, ev ++ [Event.join] ++ _close_fd p2, true⟩

/-- Lines 30-37. -/
def Kill (p : Process) (env : KillEnv) : Run :=
  if HasExited p then Kill_join p env []
  else if env.kill ≠ 0 then
    ⟨FAIL p ("Failed to kill child process. (" ++ env.errstr ++ ")"),
      [Event.kill p.pid SIGKILL], true⟩
  else Kill_join p env [Event.kill p.pid SIGKILL]

/-- The destructor, lines 7-9. -/
def Process.destroy (p : Process) (env : KillEnv) : Run := Kill p env

/-! ### `Process::Start` -/

/-- What the OS answers during `Start()`: the outcome of each `pipe` call
(`none` when it returns `-1`, else the two descriptors it stored), the return
value of `fork`, whether `exec` fails (it returns only then), and the clock. -/
structure StartEnv where
  pipe_in : Option (Fd × Fd)
  pipe_out : Option (Fd × Fd)
  pipe_err : Option (Fd × Fd)
  fork : Int
  exec_fails : Bool
  now : Nat
  deriving DecidableEq, Repr

/-- The call `pipe(a)`: on success the descriptors are stored in `a` and `0`
is returned; on failure `a` is left as it was and `-1` is returned. -/
def pipe (result : Option (Fd × Fd)) (a : Fd × Fd) : Int × (Fd × Fd) :=
  match result with
  | some fds => (0, fds)
  | none => (-1, a)

/-- Lines 67-68: `for (int i = 1; i < Arguments.size() + 1; i++)
args[i] = Arguments[i - 1].c_str();`, entered with the current `i`. -/
def Start_argLoop (Arguments : Array String) (i : Nat)
    (args : Array CharPtr) : Array CharPtr :=
  if i < Arguments.size + 1 then
    Start_argLoop Arguments (i + 1)
      (args.setD i (CharPtr.live (c_str (Arguments.getD (i - 1) ""))))
  else args
termination_by Arguments.size + 1 - i

/-- Lines 62-68: the array as `exec` receives it at line 70; `junk` is what
the uninitialised array holds before it is filled.  At line 64 `value_or`
returns a `std::string` by value and `c_str()` points into that temporary,
which is destroyed at the end of the statement: from line 65 on entry 0 is a
dangling pointer.  The entries of line 68 point into the strings of
`info.Arguments`, which live on. -/
def Start_args (info : ProcessConfig) (junk : Option String) : Array CharPtr :=
  let args0 := mkArray (info.Arguments.size + 2) (CharPtr.ofJunk junk)
  let args1 := args0.setD 0
    (CharPtr.dangling (c_str (info.ProcessName.getD info.ProcessPath)))
  let args2 := args1.setD (info.Arguments.size + 1) CharPtr.null
  Start_argLoop info.Arguments 1 args2

/-- Lines 55-60: the child puts its ends of the pipes on the standard slots. -/
def Start_childDup (p : Process) : List Event :=
  (if p.info.RedirectStandardInput then
    [Event.dup2 p.in_.1 STDIN_FILENO, Event.close p.in_.1, Event.close p.in_.2] else []) ++
  (if p.info.RedirectStandardOutput then
    [Event.dup2 p.out.2 STDOUT_FILENO, Event.close p.out.1, Event.close p.out.2] else []) ++
  (if p.info.RedirectStandardError then
    [Event.dup2 p.err.2 STDERR_FILENO, Event.close p.err.1, Event.close p.err.2] else [])

/-- Lines 54-74: the branch taken in the child (`pid == 0`). -/
def Start_child (p : Process) (env : StartEnv) (junk : Option String)
    (ev : List Event) : Run :=
  let ev1 := ev ++ Start_childDup p ++
    [Event.exec p.info.UsePathEnv (c_str p.info.ProcessPath) (Start_args p.info junk)]
  if env.exec_fails then
    ⟨FAIL p "Failed to start process.", ev1 ++ _close_fd p, true⟩
  else ⟨p, ev1, false⟩

/-- Lines 79-81: the parent closes the pipe ends it does not use. -/
def Start_closeUnused (p : Process) : List Event :=
  (if p.info.RedirectStandardInput then [Event.close p.in_.1] else []) ++
  (if p.info.RedirectStandardOutput then [Event.close p.out.2] else []) ++
  (if p.info.RedirectStandardError then [Event.close p.err.2] else [])

/-- Lines 76-81: the parent after a successful `fork`.  Assigning a new
`std::thread` to a thread object that is still joinable calls
`std::terminate`. -/
def Start_parent (p : Process) (env : StartEnv) (ev : List Event) : Run :=
  let p1 := { p with _stt := some env.now }
  match p1.wait_thread with
  | Thread.empty =>
    let p2 := { p1 with wait_thread := Thread.running }
    ⟨p2, ev ++ [Event.threadStart] ++ Start_closeUnused p2, true⟩
  | _ => ⟨p1, ev ++ [Event.threadStart, Event.terminate], false⟩

/-- Lines 51-81. -/
def Start_fork (p : Process) (env : StartEnv) (junk : Option String)
    (ev : List Event) : Run :=
  let p1 := { p with pid := env.fork }
  let ev1 := ev ++ [Event.fork env.fork]
  if p1.pid < 0 then ⟨FAIL p1 "Failed to create process.", ev1, true⟩
  else if p1.pid = 0 then Start_child p1 env junk ev1
  else Start_parent p1 env ev1

/-- Lines 44-49: the `Pipe` values, the stream objects and the tie. -/
def Start_streams (p : Process) : Process × List Event :=
  let (p1, e1) :=
    if p.info.RedirectStandardInput then
      ({ p with _pin := some ⟨p.in_.1, p.in_.2⟩, _inp := some ⟨p.in_.2⟩ },
        [Event.newStream Slot.inp p.in_.2])
    else (p, [])
  let (p2, e2) :=
    if p1.info.RedirectStandardOutput then
      ({ p1 with _pout := some ⟨p1.out.1, p1.out.2⟩, _out := some ⟨p1.out.1, none⟩ },
        e1 ++ [Event.newStream Slot.out p1.out.1])
    else (p1, e1)
  let (p3, e3) :=
    if p2.info.RedirectStandardError then
      ({ p2 with _perr := some ⟨p2.err.1, p2.err.2⟩, _err := some ⟨p2.err.1, none⟩ },
        e2 ++ [Event.newStream Slot.err p2.err.1])
    else (p2, e2)
  if p3.info.RedirectStandardInput && p3.info.RedirectStandardOutput then
    ({ p3 with _out := p3._out.map (fun o => { o with tie := p3._inp }) },
      e3 ++ [Event.tieStreams])
  else (p3, e3)

/-- Lines 39-82. -/
def Start (p : Process) (env : StartEnv) (junk : Option String) : Run :=
  let e1 := if p.info.RedirectStandardInput then [Event.pipe env.pipe_in] else []
  let r1 := pipe env.pipe_in p.in_
  if p.info.RedirectStandardInput && decide (r1.1 < 0) then
    ⟨FAIL p "Failed to open StandardInput.", e1, true⟩
  else
  let p1 := if p.info.RedirectStandardInput then { p with in_ := r1.2 } else p
  let e2 := e1 ++ if p1.info.RedirectStandardOutput then [Event.pipe env.pipe_out] else []
  let r2 := pipe env.pipe_out p1.out
  if p1.info.RedirectStandardOutput && decide (r2.1 < 0) then
    ⟨FAIL p1 "Failed to open StandardOutput.", e2, true⟩
  else
  let p2 := if p1.info.RedirectStandardOutput then { p1 with out := r2.2 } else p1
  let e3 := e2 ++ if p2.info.RedirectStandardError then [Event.pipe env.pipe_err] else []
  let r3 := pipe env.pipe_err p2.err
  if p2.info.RedirectStandardError && decide (r3.1 < 0) then
    ⟨FAIL p2 "Failed to open StandardError.", e3, true⟩
  else
  let p3 := if p2.info.RedirectStandardError then { p2 with err := r3.2 } else p2
  let (p4, e4) := Start_streams p3
  Start_fork p4 env junk (e3 ++ e4)

/-! ### Inputs and traces -/

/-- Every requested pipe is created: the OS answer to each `pipe` call that
`Start()` makes is a success. -/
def pipesOk (info : ProcessConfig) (env : StartEnv) : Bool :=
  (!info.RedirectStandardInput || env.pipe_in.isSome) &&
  (!info.RedirectStandardOutput || env.pipe_out.isSome) &&
  (!info.RedirectStandardError || env.pipe_err.isSome)

/-- The run of `Start()` in the parent succeeds: every requested pipe is
created and `fork` returns the identifier of a new child. -/
def StartOk (info : ProcessConfig) (env : StartEnv) : Bool :=
  pipesOk info env && decide (0 < env.fork)

/-- How many times the descriptor `fd` is passed to `close` in a trace. -/
def closeCount (fd : Fd) (evs : List Event) : Nat :=
  evs.count (Event.close fd)

/-- The event is a signal being sent. -/
def Event.isKill : Event → Bool
  | Event.kill _ _ => true
  | _ => false

/-- The event is a call to `execv` or `execvp`. -/
def Event.isExec : Event → Bool
  | Event.exec _ _ _ => true
  | _ => false

/-- The event is a call to `fork`. -/
def Event.isFork : Event → Bool
  | Event.fork _ => true
  | _ => false

/-! ### Sequences of operations on one instance -/

/-- The operations on one `Process` instance, each with the answers the OS
gives while it runs: a call of `Start()`, the background task `_wait_proc`
running to its end, a call of `Kill()`. -/
inductive Op
  | start (env : StartEnv) (junk : Option String)
  | reap (env : WaitEnv)
  | kill (env : KillEnv)
  deriving DecidableEq, Repr

/-- The operation is a call of `Start()`. -/
def Op.isStart : Op → Bool
  | Op.start _ _ => true
  | _ => false

/-- The answers given to the reaping task end its loop with the status of the
child (a return value of `waitpid` that is neither `0` nor `-1`): the child
is reaped. -/
def WaitEnv.reaps (env : WaitEnv) : Bool :=
  match waitLoop env.polls with
  | some (r, _) => r != -1
  | none => false

/-- A `Process` together with one bit of history: whether the child of the
latest successful `fork` has been reaped. -/
structure Sys where
  proc : Process
  reaped : Bool
  deriving DecidableEq, Repr

/-- One operation.  `none` when control does not come back (the image was
replaced, the program terminated, `join` is blocked) and when the reaping
task is asked to run although no such task is running or its loop has not
ended. -/
def step (s : Sys) : Op → Option Sys
  | Op.start env junk =>
    let r := Start s.proc env junk
    if r.returned then
      some ⟨r.proc, if StartOk s.proc.info env then false else s.reaped⟩
    else none
  | Op.reap env =>
    match s.proc.wait_thread with
    | Thread.running =>
      match _wait_proc s.proc env with
      | some q => some ⟨{ q with wait_thread := Thread.finished }, s.reaped || env.reaps⟩
      | none => none
    | _ => none
  | Op.kill env =>
    let r := Kill s.proc env
    if r.returned then
      some ⟨r.proc,
        s.reaped || (decide (s.proc.wait_thread = Thread.running) &&
          decide (Event.join ∈ r.events) && env.wait.reaps)⟩
    else none

/-- A sequence of operations, from left to right. -/
def runOps (s : Sys) : List Op → Option Sys
  | [] => some s
  | op :: ops =>
    match step s op with
    | some s1 => runOps s1 ops
    | none => none

/-- A freshly constructed instance, no child yet. -/
def Sys.blank (info : ProcessConfig) (pid0 : Int) (fds0 : Fd × Fd) : Sys :=
  ⟨Process.blank info pid0 fds0, false⟩

/-- Exit code and termination signal are not both set, and both are empty
while the current child has not been reaped. -/
def OutcomeInv (s : Sys) : Prop :=
  ¬ (s.proc._exc.isSome = true ∧ s.proc._sig.isSome = true) ∧
  (s.reaped = false → s.proc._exc = none ∧ s.proc._sig = none)

/-- Strengthened form of `OutcomeInv` used for induction: moreover, while the
reaping task is still running its child has not been reaped. -/
def Inv2 (s : Sys) : Prop :=
  OutcomeInv s ∧ (s.proc.wait_thread = Thread.running → s.reaped = false)

/-- The situation before any launch: no reaping task, no child reaped, no
outcome recorded. -/
def Inv1 (s : Sys) : Prop :=
  s.proc.wait_thread = Thread.empty ∧ s.reaped = false ∧
  s.proc._exc = none ∧ s.proc._sig = none

/-! ### Sample inputs -/

/-- A configuration that redirects standard input only. -/
def cfgIn : ProcessConfig :=
  { ProcessPath := "/bin/cat", ProcessName := none, Arguments := #[],
    RedirectStandardInput := true, RedirectStandardOutput := false,
    RedirectStandardError := false, UsePathEnv := false }

/-- A configuration with a display name, two arguments and all three
redirections. -/
def cfgAll : ProcessConfig :=
  { ProcessPath := "/bin/sh", ProcessName := some "sh", Arguments := #["-c", "exit 42"],
    RedirectStandardInput := true, RedirectStandardOutput := true,
    RedirectStandardError := true, UsePathEnv := true }

/-- Every pipe is created, on descriptors 3 to 8, and `fork` returns 100. -/
def envOk : StartEnv :=
  { pipe_in := some (3, 4), pipe_out := some (5, 6), pipe_err := some (7, 8),
    fork := 100, exec_fails := false, now := 1 }

/-- The view of the same `fork` from the child, where it returns 0. -/
def envChild : StartEnv := { envOk with fork := 0 }

/-- The first `pipe` call fails. -/
def envNoPipe : StartEnv := { envOk with pipe_in := none }

/-- One idle poll, then the child is reported as having called `exit(42)`. -/
def waitExit42 : WaitEnv :=
  { polls := [(0, 0), (100, W_EXITCODE 42 0)], now := 2, errstr := "" }

/-- The child is reported as having called `exit(0)`. -/
def waitExit0 : WaitEnv :=
  { polls := [(100, W_EXITCODE 0 0)], now := 2, errstr := "" }

/-- The child is reported as killed by signal 9. -/
def waitKilled : WaitEnv :=
  { polls := [(100, 9)], now := 3, errstr := "" }

/-- The signal is delivered and the child is then reported as killed by it. -/
def killOk : KillEnv := { kill := 0, errstr := "", wait := waitKilled }

/-- Sending the signal fails. -/
def killFails : KillEnv :=
  { kill := -1, errstr := "Operation not permitted", wait := waitKilled }

/-- A started instance with its input redirected: the object `Start()` leaves
behind for `cfgIn` and `envOk`. -/
def startedIn : Run := Start (Process.blank cfgIn (-1) (0, 0)) envOk none

/-- Two launches on one instance: the first child exits with code 0 and is
torn down, the second is killed by signal 9. -/
def relaunchOps : List Op :=
  [Op.start envOk none, Op.reap waitExit0, Op.kill killOk,
   Op.start envOk none, Op.reap waitKilled]

/-- One launch on one instance: the child exits with code 0 and is reaped,
then `Kill()` runs twice. -/
def singleLaunchOps : List Op :=
  [Op.start envOk none, Op.reap waitExit0, Op.kill killOk, Op.kill killOk]

/-- The state in which `singleLaunchOps` leaves a fresh instance of `cfgIn`. -/
def singleLaunchEnd : Sys :=
  { proc :=
      { info := cfgIn, pid := 100, _stat := 0, _exc := some 0, _sig := none,
        fail := false, reason := "", in_ := (3, 4), out := (0, 0), err := (0, 0),
        _pin := some ⟨3, 4⟩, _pout := none, _perr := none,
        _inp := some ⟨4⟩, _out := none, _err := none,
        _stt := some 1, _ext := some 2, wait_thread := Thread.empty },
    reaped := true }

/-- The `fork` call fails; the pipes before it were created. -/
def envForkFails : StartEnv := { envOk with fork := -1 }

/-- A configuration that redirects standard input and standard output. -/
def cfgInOut : ProcessConfig :=
  { ProcessPath := "/bin/cat", ProcessName := none, Arguments := #[],
    RedirectStandardInput := true, RedirectStandardOutput := true,
    RedirectStandardError := false, UsePathEnv := false }

/-- The output stream of the object is tied to some stream. -/
def Process.outputTied (p : Process) : Bool :=
  match p._out with
  | some o => o.tie.isSome
  | none => false

end Ipc

/-!
# Time of day (`ps/datetime/clock.cpp`)

The unit of `ps_clock` is `int64_t`.  A value is an `Int` inside the range of
the type; an arithmetic operation whose result leaves the range (undefined
behaviour for a signed type) yields `none`.
-/

namespace Clock

/-- The least `int64_t`. -/
def INT64_MIN : Int := -9223372036854775808

/-- The greatest `int64_t`. -/
def INT64_MAX : Int := 9223372036854775807

/-- The value is representable as an `int64_t`. -/
def isInt64 (x : Int) : Bool :=
  decide (INT64_MIN ≤ x) && decide (x ≤ INT64_MAX)

/-- The result of an operation, when it is representable. -/
def checked (x : Int) : Option Int :=
  if isInt64 x then some x else none

/-- The operator `a + b` on `int64_t`. -/
def add64 (a b : Int) : Option Int := checked (a + b)

/-- The operator `a - b` on `int64_t`. -/
def sub64 (a b : Int) : Option Int := checked (a - b)

/-- The operator `a * b` on `int64_t`. -/
def mul64 (a b : Int) : Option Int := checked (a * b)

/-- The operator `a / b` on `int64_t`: the quotient truncated towards zero. -/
def div64 (a b : Int) : Option Int :=
  if b = 0 then none else checked (Int.tdiv a b)

/-- The operator `a % b` on `int64_t`: the remainder with the sign of `a`. -/
def mod64 (a b : Int) : Option Int :=
  if b = 0 then none
  else if a = INT64_MIN ∧ b = -1 then none
  else some (Int.tmod a b)

/-- Line 11. -/
def second_mod : Int := 60

/-- Line 12. -/
def minute_mod : Int := 60

/-- Line 13. -/
def hour12_mod : Int := 12

/-- Line 14. -/
def hour24_mod : Int := 24

/-- Line 16. -/
def minute_multiplier : Int := 60

/-- Line 17. -/
def hour_multiplier : Int := 3600

/-- Line 19. -/
def clock_mod : Int := 86400

/-- The enumeration of lines 28-30. -/
inductive clock_mode
  | clock
  | time_point
  deriving DecidableEq, Repr

/-- The two data members, lines 37-38. -/
structure ps_clock where
  m_time : Int
  m_clock_mode : clock_mode
  deriving DecidableEq, Repr

/-- Lines 85-88. -/
def m_normalize (c : ps_clock) : Option ps_clock :=
  if c.m_clock_mode ≠ clock_mode.clock then some c
  else do
    let t ← mod64 c.m_time clock_mod
    pure { c with m_time := t }

/-- Lines 54-58 and 69-73: in clock mode the three amounts are reduced. -/
def reduce_hms (c : ps_clock) (h m s : Int) : Option (Int × Int × Int) :=
  if c.m_clock_mode = clock_mode.clock then do
    let h1 ← mod64 h hour24_mod
    let m1 ← mod64 m minute_mod
    let s1 ← mod64 s second_mod
    pure (h1, m1, s1)
  else pure (h, m, s)

/-- Lines 53-66. -/
def m_add_time (c : ps_clock) (h m s : Int) : Option ps_clock := do
  let (h1, m1, s1) ← reduce_hms c h m s
  let a ← mul64 h1 hour_multiplier
  let b ← add64 c.m_time a
  let d ← mul64 m1 minute_multiplier
  let e ← add64 b d
  let f ← add64 e s1
  m_normalize { c with m_time := f }

/-- Lines 68-83. -/
def m_sub_time (c : ps_clock) (h m s : Int) : Option ps_clock := do
  let t0 ← if c.m_clock_mode = clock_mode.clock then add64 c.m_time clock_mod
    else pure c.m_time
  let (h1, m1, s1) ← reduce_hms c h m s
  let a ← mul64 h1 hour_multiplier
  let d ← mul64 m1 minute_multiplier
  let e ← add64 a d
  let f ← add64 e s1
  let g ← sub64 t0 f
  m_normalize { c with m_time := g }

/-- Lines 96-101. -/
def is_valid (h m s : Int) : Bool :=
  if h ≥ hour24_mod then false
  else if m ≥ minute_mod then false
  else if s ≥ second_mod then false
  else true

/-- Lines 115-122. -/
def add_seconds (c : ps_clock) (sec : Int) : Option ps_clock := do
  let h ← div64 sec hour_multiplier
  let r ← mod64 sec hour_multiplier
  let m ← div64 r minute_multiplier
  let s ← mod64 sec second_mod
  m_add_time c h m s

/-- Lines 136-143. -/
def sub_seconds (c : ps_clock) (sec : Int) : Option ps_clock := do
  let h ← div64 sec hour_multiplier
  let r ← mod64 sec hour_multiplier
  let m ← div64 r minute_multiplier
  let s ← mod64 sec second_mod
  m_sub_time c h m s

/-- Lines 145-152.  No operation here can leave the range of the type. -/
def get_hour12 (c : ps_clock) : Bool × Int :=
  let h := Int.tdiv c.m_time hour_multiplier
  let u := Int.tmod h hour12_mod
  let u1 := if u = 0 then hour12_mod else u
  (decide (h < hour12_mod), u1)

/-- Lines 154-160.  The arguments of `std::abs` lie strictly between -60 and
60, so no operation here can leave the range of the type. -/
def get_time (c : ps_clock) : Int × Int × Int :=
  (Int.tdiv c.m_time hour_multiplier,
   ((Int.tdiv (Int.tmod c.m_time hour_multiplier) minute_multiplier).natAbs : Int),
   ((Int.tmod c.m_time second_mod).natAbs : Int))

/-- The function `std::to_string` on `int64_t`: the decimal digits, after a
minus sign for a negative value. -/
def to_string_i64 (n : Int) : List Char :=
  if n < 0 then '-' :: Nat.toDigits 10 n.natAbs else Nat.toDigits 10 n.toNat

/-- The upper-case cases of the `switch`, for instance lines 217-222:
`if (hs.size() == 1) result.push_back('0');` and then, falling through,
`result += hs;`. -/
def zero_pad (result x : List Char) : List Char :=
  (if x.length = 1 then result ++ ['0'] else result) ++ x

/-- Lines 216-254: the `switch` on the character after a `%`. -/
def format_spec (hs ms ss us ams pms AMS PMS : List Char) (is_am : Bool)
    (result : List Char) (c : Char) : List Char :=
  if c = 'H' then zero_pad result hs
  else if c = 'h' then result ++ hs
  else if c = 'M' then zero_pad result ms
  else if c = 'm' then result ++ ms
  else if c = 'S' then zero_pad result ss
  else if c = 's' then result ++ ss
  else if c = 'U' then zero_pad result us
  else if c = 'u' then result ++ us
  else if c = '%' then result ++ ['%']
  else if c = 'a' then result ++ (if is_am then ams else pms)
  else if c = 'A' then result ++ (if is_am then AMS else PMS)
  else result ++ ['%', c]

/-- Lines 204-255: the loop over the format, entered with the characters
still to read. -/
def format_loop (hs ms ss us ams pms AMS PMS : List Char) (is_am : Bool) :
    List Char → List Char → List Char
  | [], result => result
  | [c], result => if c ≠ '%' then result ++ [c] else result ++ ['%']
  | c :: d :: rest, result =>
    if c ≠ '%' then format_loop hs ms ss us ams pms AMS PMS is_am (d :: rest) (result ++ [c])
    else format_loop hs ms ss us ams pms AMS PMS is_am rest
      (format_spec hs ms ss us ams pms AMS PMS is_am result d)

/-- Lines 177-258.  A `std::string` is the list of its characters. -/
def to_string (c : ps_clock) (format : List Char) (abbr : List Char × List Char) :
    List Char :=
  let (h, m, s) := get_time c
  let (is_am, u) := get_hour12 c
  let neg := decide (h < 0)
  let h1 : Int := if neg then (h.natAbs : Int) else h
  let result : List Char := if neg then ['-'] else []
  let hs := to_string_i64 h1
  let ms := to_string_i64 m
  let ss := to_string_i64 s
  let us := to_string_i64 u
  let (ams, pms) := abbr
  let AMS := ams.map Char.toUpper
  let PMS := pms.map Char.toUpper
  format_loop hs ms ss us ams pms AMS PMS is_am format result

/-- The default value of the parameter `format`, line 178. -/
def default_format : List Char := "%H:%M:%S".toList

/-- The default value of the parameter `abbr`, line 179. -/
def default_abbr : List Char × List Char := ("am".toList, "pm".toList)

/-- A number below 100 written with two decimal digits, zero-padded: the
reading of an upper-case specifier given in the format documentation
(lines 169-176). -/
def two_digits (n : Int) : List Char :=
  [Nat.digitChar (n.toNat / 10), Nat.digitChar (n.toNat % 10)]

/-- The text `HH:MM:SS` for a raw time `t`, as the format documentation
describes it. -/
def HHMMSS (t : Int) : List Char :=
  two_digits (t / 3600) ++ [':'] ++ two_digits (t % 3600 / 60) ++ [':'] ++ two_digits (t % 60)

end Clock

/-!
# Running minimum and maximum (`ps/minmax.cpp`)

The element type `T` is a fixed-width integer type: its values are the
integers from `lo = numeric_limits<T>::min()` to `hi = numeric_limits<T>::max()`.
-/

namespace MinMax

/-- The four data members, lines 15-19. -/
structure minmax where
  m_min : Int
  m_max : Int
  m_dmin : Int
  m_dmax : Int
  deriving DecidableEq, Repr

/-- The function `std::min(a, b)`, which is `(b < a) ? b : a`. -/
def std_min (a b : Int) : Int := if b < a then b else a

/-- The function `std::max(a, b)`, which is `(a < b) ? b : a`. -/
def std_max (a b : Int) : Int := if a < b then b else a

/-- Line 22. -/
def set_default (x : minmax) (d_max d_min : Int) : minmax :=
  { x with m_dmin := d_min, m_dmax := d_max }

/-- Line 23. -/
def clear (x : minmax) : minmax :=
  { x with m_min := x.m_dmin, m_max := x.m_dmax }

/-- Line 13: the constructor `minmax(T d_max, T d_min)`, run on storage that
holds `junk`. -/
def construct (junk : minmax) (d_max d_min : Int) : minmax :=
  clear (set_default junk d_max d_min)

/-- Lines 7-10: the default constructor, which delegates to line 13 with
`numeric_limits<T>::min()` and `numeric_limits<T>::max()`. -/
def construct_default (junk : minmax) (lo hi : Int) : minmax :=
  construct junk lo hi

/-- Lines 28-32: `operator|=`. -/
def or_assign (x : minmax) (value : Int) : minmax :=
  { x with m_min := std_min x.m_min value, m_max := std_max x.m_max value }

/-- Applying `operator|=` to each element of a list, in order. -/
def feed (x : minmax) (values : List Int) : minmax :=
  values.foldl or_assign x

/-- The tracker holds the minimum and the maximum of the list. -/
def holdsExtremes (x : minmax) (values : List Int) : Prop :=
  x.m_min ∈ values ∧ (∀ v ∈ values, x.m_min ≤ v) ∧
  x.m_max ∈ values ∧ (∀ v ∈ values, v ≤ x.m_max)

end MinMax

namespace Ipc

/-! ## Lemmas -/

/-- The reaping task touches neither the configuration, the identifier, the
descriptor arrays, the thread object nor the stream pointers. -/
theorem wait_proc_frame {p q : Process} {env : WaitEnv} (h : _wait_proc p env = some q) :
    q.info = p.info ∧ q.pid = p.pid ∧ q.in_ = p.in_ ∧ q.out = p.out ∧ q.err = p.err ∧
    q.wait_thread = p.wait_thread ∧ q._inp = p._inp ∧ q._out = p._out ∧ q._err = p._err := by
  unfold _wait_proc at h
  split at h
  · exact absurd h (by simp)
  · simp only [FAIL] at h
    split_ifs at h <;> (cases h; simp)

/-- The release `_close_fd` reads only the configuration and the three descriptor
arrays. -/
theorem close_fd_congr {p q : Process} (hi : q.info = p.info) (h1 : q.in_ = p.in_)
    (h2 : q.out = p.out) (h3 : q.err = p.err) : _close_fd q = _close_fd p := by
  simp [_close_fd, hi, h1, h2, h3]

/-- The calls made from line 34 on: a `join` when the thread is joinable, then
the resource release once `join` has come back. -/
theorem Kill_join_events (p : Process) (env : KillEnv) (ev : List Event) :
    (Kill_join p env ev).events =
      ev ++ (if p.wait_thread = Thread.empty then [] else [Event.join]) ++
        (if (Kill_join p env ev).returned then _close_fd p else []) := by
  unfold Kill_join
  rcases ht : p.wait_thread
  · simp
  · simp only []
    rcases hw : _wait_proc p env.wait with _ | q
    · simp
    · obtain ⟨hi, -, h1, h2, h3, -⟩ := wait_proc_frame hw
      have : _close_fd { q with wait_thread := Thread.empty } = _close_fd p :=
        close_fd_congr hi h1 h2 h3
      simp [this]
  · have : _close_fd { p with wait_thread := Thread.empty } = _close_fd p :=
      close_fd_congr rfl rfl rfl rfl
    simp [this]

/-- With a positive `fork` result, lines 51-81 are the parent branch. -/
theorem Start_fork_parent (p : Process) (env : StartEnv) (junk : Option String)
    (ev : List Event) (h : 0 < env.fork) :
    Start_fork p env junk ev =
      Start_parent { p with pid := env.fork } env (ev ++ [Event.fork env.fork]) := by
  have h1 : ¬ env.fork < 0 := by omega
  have h2 : env.fork ≠ 0 := by omega
  simp [Start_fork, h1, h2]

/-- Thread starts from `fork` on: one exactly when `fork` returned a child. -/
theorem Start_fork_count (p : Process) (env : StartEnv) (junk : Option String)
    (ev : List Event) :
    (Start_fork p env junk ev).events.count Event.threadStart =
      ev.count Event.threadStart + (if 0 < env.fork then 1 else 0) := by
  rcases lt_trichotomy env.fork 0 with hf | hf | hf
  · have : ¬ 0 < env.fork := by omega
    simp [Start_fork, hf, this]
  · simp only [Start_fork, hf, lt_self_iff_false, if_false, if_true, Start_child]
    rcases hi : p.info.RedirectStandardInput <;> rcases ho : p.info.RedirectStandardOutput <;>
      rcases he : p.info.RedirectStandardError <;> rcases hx : env.exec_fails <;>
      simp [Start_childDup, _close_fd, hi, ho, he]
  · rw [Start_fork_parent p env junk ev hf]
    simp only [Start_parent, hf, if_true]
    rcases hi : p.info.RedirectStandardInput <;> rcases ho : p.info.RedirectStandardOutput <;>
      rcases he : p.info.RedirectStandardError <;> rcases ht : p.wait_thread <;>
      simp [Start_closeUnused, hi, ho, he]

/-- Reading an array after one in-bounds write. -/
theorem getElem?_setD_of_lt {α : Type} (a : Array α) (i j : Nat) (v : α) (h : i < a.size) :
    (a.setD i v)[j]? = if i = j then some v else a[j]? := by
  simp only [Array.setD, h, dite_true]
  exact Array.get?_set a ⟨i, h⟩ j v

/-- The loop of lines 67-68 entered at `i`: the size is kept, the entries
`i .. n` receive the arguments, every other entry is left as it was. -/
theorem argLoop_spec (A : Array String) (i : Nat) (args : Array CharPtr)
    (hs : args.size = A.size + 2) :
    (Start_argLoop A i args).size = A.size + 2 ∧
    ∀ j, (Start_argLoop A i args)[j]? =
      if i ≤ j ∧ j < A.size + 1 then some (CharPtr.live (c_str (A.getD (j - 1) "")))
      else args[j]? := by
  induction i, args using Start_argLoop.induct A with
  | case1 i args hlt ih =>
    rw [Start_argLoop, if_pos hlt]
    have hs1 : (args.setD i (CharPtr.live (c_str (A.getD (i - 1) "")))).size = A.size + 2 := by
      simp [hs]
    obtain ⟨h1, h2⟩ := ih hs1
    refine ⟨h1, fun j => ?_⟩
    rw [h2 j, getElem?_setD_of_lt _ _ _ _ (by omega)]
    by_cases hij : i = j
    · subst hij
      have : ¬ (i + 1 ≤ i ∧ i < A.size + 1) := by omega
      simp [hlt]
    · by_cases hc : i ≤ j ∧ j < A.size + 1
      · have : i + 1 ≤ j ∧ j < A.size + 1 := by omega
        simp [hc, this]
      · have : ¬ (i + 1 ≤ j ∧ j < A.size + 1) := by omega
        simp [hc, this, hij]
  | case2 i args hlt =>
    rw [Start_argLoop, if_neg hlt]
    refine ⟨hs, fun j => ?_⟩
    have : ¬ (i ≤ j ∧ j < A.size + 1) := by omega
    simp [this]

/-- The array of lines 62-68: its size, its first entry (a pointer into the
destroyed temporary of line 64), the arguments and the terminator. -/
theorem Start_args_spec (info : ProcessConfig) (junk : Option String) :
    (Start_args info junk).size = info.Arguments.size + 2 ∧
    (Start_args info junk)[0]? =
      some (CharPtr.dangling (c_str (match info.ProcessName with
        | some displayName => displayName
        | none => info.ProcessPath))) ∧
    (∀ i (h1 : 1 ≤ i) (h2 : i ≤ info.Arguments.size),
      (Start_args info junk)[i]? =
        some (CharPtr.live (c_str (info.Arguments.get ⟨i - 1, by omega⟩)))) ∧
    (Start_args info junk)[info.Arguments.size + 1]? = some CharPtr.null := by
  have hs : ((((mkArray (info.Arguments.size + 2) (CharPtr.ofJunk junk)).setD 0
      (CharPtr.dangling (c_str (info.ProcessName.getD info.ProcessPath)))).setD
        (info.Arguments.size + 1) CharPtr.null)).size = info.Arguments.size + 2 := by simp
  obtain ⟨h1, h2⟩ := argLoop_spec info.Arguments 1 _ hs
  simp only [Start_args]
  refine ⟨h1, ?_, ?_, ?_⟩
  · rw [h2 0]
    rw [if_neg (by omega), getElem?_setD_of_lt _ _ _ _ (by simp),
      if_neg (by omega), getElem?_setD_of_lt _ _ _ _ (by simp)]
    cases info.ProcessName <;> simp
  · intro i hi hle
    rw [h2 i, if_pos (by omega)]
    have : i - 1 < info.Arguments.size := by omega
    simp [Array.getElem?_eq_getElem, this]
  · rw [h2, if_neg (by omega), getElem?_setD_of_lt _ _ _ _ (by simp)]
    simp

/-- Calls to `exec` from `fork` on: one, in the child, with the array of
lines 62-68. -/
theorem Start_fork_exec (p : Process) (env : StartEnv) (junk : Option String)
    (ev : List Event) :
    (Start_fork p env junk ev).events.filter Event.isExec =
      ev.filter Event.isExec ++
        (if env.fork = 0 then
          [Event.exec p.info.UsePathEnv (c_str p.info.ProcessPath) (Start_args p.info junk)]
        else []) := by
  rcases lt_trichotomy env.fork 0 with hf | hf | hf
  · have : env.fork ≠ 0 := by omega
    simp [Start_fork, hf, this, Event.isExec]
  · simp only [Start_fork, hf, lt_self_iff_false, if_false, if_true, Start_child]
    rcases hi : p.info.RedirectStandardInput <;> rcases ho : p.info.RedirectStandardOutput <;>
      rcases he : p.info.RedirectStandardError <;> rcases hx : env.exec_fails <;>
      simp [Start_childDup, _close_fd, hi, ho, he, Event.isExec, List.filter_cons]
  · rw [Start_fork_parent p env junk ev hf]
    have : env.fork ≠ 0 := by omega
    simp only [Start_parent, this, if_false]
    rcases hi : p.info.RedirectStandardInput <;> rcases ho : p.info.RedirectStandardOutput <;>
      rcases he : p.info.RedirectStandardError <;> rcases ht : p.wait_thread <;>
      simp [Start_closeUnused, hi, ho, he, Event.isExec, List.filter_cons]

/-- Every call to `exec` that `Start()` makes: one exactly in the child after
all requested pipes were created, with the array of lines 62-68. -/
theorem Start_exec (p : Process) (env : StartEnv) (junk : Option String) :
    (Start p env junk).events.filter Event.isExec =
      if pipesOk p.info env = true ∧ env.fork = 0 then
        [Event.exec p.info.UsePathEnv (c_str p.info.ProcessPath) (Start_args p.info junk)]
      else [] := by
  rcases hi : p.info.RedirectStandardInput <;> rcases ho : p.info.RedirectStandardOutput <;>
    rcases he : p.info.RedirectStandardError <;>
    rcases hpi : env.pipe_in with _ | ⟨a1, a2⟩ <;>
    rcases hpo : env.pipe_out with _ | ⟨b1, b2⟩ <;>
    rcases hpe : env.pipe_err with _ | ⟨c1, c2⟩ <;>
    simp [Start, pipe, Start_streams, Start_fork_exec, pipesOk, hi, ho, he, hpi, hpo, hpe,
      Event.isExec, List.filter_cons]

/-- A call of `Start()` changes neither the recorded outcome nor the configuration. -/
theorem Start_frame (p : Process) (env : StartEnv) (junk : Option String) :
    (Start p env junk).proc._exc = p._exc ∧ (Start p env junk).proc._sig = p._sig ∧
    (Start p env junk).proc.info = p.info := by
  rcases hi : p.info.RedirectStandardInput <;> rcases ho : p.info.RedirectStandardOutput <;>
    rcases he : p.info.RedirectStandardError <;>
    rcases hpi : env.pipe_in with _ | ⟨a1, a2⟩ <;>
    rcases hpo : env.pipe_out with _ | ⟨b1, b2⟩ <;>
    rcases hpe : env.pipe_err with _ | ⟨c1, c2⟩ <;>
    simp [Start, pipe, Start_streams, pipesOk, hi, ho, he, hpi, hpo, hpe, FAIL] <;>
    (simp only [Start_fork, Start_child, Start_parent, FAIL]; split_ifs <;> (try split) <;> simp)

/-- A successful `Start()` on an instance without a task comes back with the
identifier of the child stored and the reaping task running. -/
theorem Start_ok_state (p : Process) (env : StartEnv) (junk : Option String)
    (h : StartOk p.info env = true) (ht : p.wait_thread = Thread.empty) :
    (Start p env junk).returned = true ∧ (Start p env junk).proc.pid = env.fork ∧
    (Start p env junk).proc.fail = p.fail ∧
    (Start p env junk).proc.wait_thread = Thread.running := by
  simp only [StartOk, pipesOk, Bool.and_eq_true, Bool.or_eq_true, decide_eq_true_eq] at h
  obtain ⟨⟨⟨h1, h2⟩, h3⟩, hf⟩ := h
  rcases hi : p.info.RedirectStandardInput <;> rcases ho : p.info.RedirectStandardOutput <;>
    rcases he : p.info.RedirectStandardError <;>
    rcases hpi : env.pipe_in with _ | ⟨a1, a2⟩ <;>
    rcases hpo : env.pipe_out with _ | ⟨b1, b2⟩ <;>
    rcases hpe : env.pipe_err with _ | ⟨c1, c2⟩ <;>
    simp_all [Start, pipe, Start_streams, Start_fork_parent, Start_parent]

/-- The polling loop skips the answers `0` and ends at the first other one. -/
theorem waitLoop_idle (idle rest : List (Int × Int)) (r st : Int)
    (hidle : ∀ x ∈ idle, x.1 = 0) (hr : r ≠ 0) :
    waitLoop (idle ++ (r, st) :: rest) = some (r, st) := by
  induction idle with
  | nil => simp [waitLoop, hr]
  | cons x xs ih =>
    obtain ⟨x1, x2⟩ := x
    have hx : x1 = 0 := hidle (x1, x2) (by simp)
    have := ih (fun y hy => hidle y (by simp [hy]))
    simp [waitLoop, hx, this]

/-- The status of a child that called `exit(c)` reports a normal exit with
code `c`. -/
theorem W_EXITCODE_exited (c : Int) (h0 : 0 ≤ c) (h1 : c ≤ 255) :
    WIFEXITED (W_EXITCODE c 0) = true ∧ WEXITSTATUS (W_EXITCODE c 0) = c := by
  simp only [WIFEXITED, WTERMSIG, WEXITSTATUS, W_EXITCODE, beq_iff_eq]
  constructor <;> omega

/-- Run on an instance with no outcome yet, the reaping task sets at most one
of exit code and signal, and none when the child was not reaped. -/
theorem wait_proc_outcome {p q : Process} {env : WaitEnv} (h : _wait_proc p env = some q)
    (he : p._exc = none) (hs : p._sig = none) :
    q.wait_thread = p.wait_thread ∧
    ¬ (q._exc.isSome = true ∧ q._sig.isSome = true) ∧
    (env.reaps = false → q._exc = none ∧ q._sig = none) := by
  unfold _wait_proc at h
  unfold WaitEnv.reaps
  split at h
  · exact absurd h (by simp)
  · rename_i r s hw
    rw [hw]
    simp only [FAIL] at h
    split_ifs at h with h1 h2 h3 <;> cases h <;> simp [he, hs, h1]

/-- Effect of lines 34-36 on outcome and thread object. -/
theorem Kill_join_outcome (p : Process) (env : KillEnv) (ev : List Event) :
    (p.wait_thread ≠ Thread.running →
      (Kill_join p env ev).proc._exc = p._exc ∧ (Kill_join p env ev).proc._sig = p._sig) ∧
    ((Kill_join p env ev).returned = true →
      (Kill_join p env ev).proc.wait_thread = Thread.empty) ∧
    ((Kill_join p env ev).returned = true → p.wait_thread = Thread.running →
      p._exc = none → p._sig = none →
      Event.join ∈ (Kill_join p env ev).events ∧
      ¬ ((Kill_join p env ev).proc._exc.isSome = true ∧
        (Kill_join p env ev).proc._sig.isSome = true) ∧
      (env.wait.reaps = false →
        (Kill_join p env ev).proc._exc = none ∧ (Kill_join p env ev).proc._sig = none)) := by
  rcases ht : p.wait_thread
  · have hj : Kill_join p env ev = ⟨p, ev ++ _close_fd p, true⟩ := by simp [Kill_join, ht]
    simp [hj, ht]
  · rcases hw : _wait_proc p env.wait with _ | q
    · have hj : Kill_join p env ev = ⟨p, ev ++ [Event.join], false⟩ := by
        simp [Kill_join, ht, hw]
      simp [hj]
    · have hj : Kill_join p env ev = ⟨{ q with wait_thread := Thread.empty },
          ev ++ [Event.join] ++ _close_fd { q with wait_thread := Thread.empty }, true⟩ := by
        simp [Kill_join, ht, hw]
      rw [hj]
      refine ⟨by simp, by simp, ?_⟩
      intro _ _ he hs
      obtain ⟨-, h2, h3⟩ := wait_proc_outcome hw he hs
      exact ⟨by simp, h2, h3⟩
  · have hj : Kill_join p env ev = ⟨{ p with wait_thread := Thread.empty },
        ev ++ [Event.join] ++ _close_fd { p with wait_thread := Thread.empty }, true⟩ := by
      simp [Kill_join, ht]
    simp [hj]

/-- Reaping and `Kill()` keep the strengthened invariant. -/
theorem step_preserves_Inv2 (s t : Sys) (op : Op) (hinv : Inv2 s) (hop : op.isStart = false)
    (hstep : step s op = some t) : Inv2 t := by
  obtain ⟨⟨hboth, hnone⟩, hrun⟩ := hinv
  cases op with
  | start env junk => simp [Op.isStart] at hop
  | reap env =>
    simp only [step] at hstep
    split at hstep
    · rename_i ht
      have hr := hrun ht
      obtain ⟨he, hs⟩ := hnone hr
      split at hstep
      · rename_i q hq
        cases hstep
        obtain ⟨-, h2, h3⟩ := wait_proc_outcome hq he hs
        refine ⟨⟨h2, ?_⟩, by simp⟩
        intro hre
        simp only [hr, Bool.false_or] at hre
        exact h3 hre
      · exact absurd hstep (by simp)
    · exact absurd hstep (by simp)
  | kill env =>
    simp only [step] at hstep
    split_ifs at hstep with hret
    cases hstep
    simp only [Inv2, OutcomeInv]
    by_cases hex : HasExited s.proc = true
    · have hk : Kill s.proc env = Kill_join s.proc env [] := by simp [Kill, hex]
      rw [hk] at hret ⊢
      obtain ⟨k1, k2, k3⟩ := Kill_join_outcome s.proc env []
      have hnr : s.proc.wait_thread ≠ Thread.running := by
        intro ht
        obtain ⟨he, hs⟩ := hnone (hrun ht)
        simp [HasExited, he, hs] at hex
      obtain ⟨e1, e2⟩ := k1 hnr
      simp only [e1, e2, k2 hret]
      refine ⟨⟨hboth, ?_⟩, by simp⟩
      intro h
      simp only [hnr, decide_False, Bool.false_and, Bool.or_false] at h
      exact hnone h
    · by_cases hkr : env.kill = 0
      · have hk : Kill s.proc env = Kill_join s.proc env [Event.kill s.proc.pid SIGKILL] := by
          simp [Kill, hex, hkr]
        rw [hk] at hret ⊢
        obtain ⟨k1, k2, k3⟩ := Kill_join_outcome s.proc env [Event.kill s.proc.pid SIGKILL]
        by_cases hnr : s.proc.wait_thread = Thread.running
        · obtain ⟨he, hs⟩ := hnone (hrun hnr)
          obtain ⟨j1, j2, j3⟩ := k3 hret hnr he hs
          refine ⟨⟨j2, ?_⟩, by simp [k2 hret]⟩
          intro h
          simp only [hrun hnr, hnr, decide_True, j1, Bool.true_and, Bool.false_or] at h
          exact j3 h
        · obtain ⟨e1, e2⟩ := k1 hnr
          simp only [e1, e2, k2 hret]
          refine ⟨⟨hboth, ?_⟩, by simp⟩
          intro h
          simp only [hnr, decide_False, Bool.false_and, Bool.or_false] at h
          exact hnone h
      · have hk : Kill s.proc env =
            ⟨FAIL s.proc ("Failed to kill child process. (" ++ env.errstr ++ ")"),
              [Event.kill s.proc.pid SIGKILL], true⟩ := by
          simp [Kill, hex, hkr]
        rw [hk]
        simp only [FAIL]
        refine ⟨⟨hboth, ?_⟩, ?_⟩
        · intro h
          simp only [List.mem_singleton, reduceCtorEq, decide_False, Bool.and_false,
            Bool.false_and, Bool.or_false] at h
          exact hnone h
        · intro ht
          simp only [List.mem_singleton, reduceCtorEq, decide_False, Bool.and_false,
            Bool.false_and, Bool.or_false]
          exact hrun ht

/-- Sequences without `Start()` keep the strengthened invariant. -/
theorem runOps_preserves_Inv2 (ops : List Op) :
    ∀ s t, Inv2 s → ops.countP Op.isStart = 0 → runOps s ops = some t → Inv2 t := by
  induction ops with
  | nil => intro s t hs _ h; simp only [runOps, Option.some.injEq] at h; exact h ▸ hs
  | cons op ops ih =>
    intro s t hs hc h
    simp only [runOps] at h
    have hop : op.isStart = false := by
      by_contra hcon
      simp only [Bool.not_eq_false] at hcon
      simp [List.countP_cons, hcon] at hc
    have hc2 : ops.countP Op.isStart = 0 := by
      simpa [List.countP_cons, hop] using hc
    split at h
    · rename_i s1 hs1
      exact ih s1 t (step_preserves_Inv2 s s1 op hs hop hs1) hc2 h
    · exact absurd h (by simp)

/-- Before any launch the strengthened invariant holds. -/
theorem Inv1_Inv2 (s : Sys) (h : Inv1 s) : Inv2 s := by
  obtain ⟨ht, hr, he, hs⟩ := h
  exact ⟨⟨by simp [he], fun _ => ⟨he, hs⟩⟩, fun _ => hr⟩

/-- From the situation before any launch: `Kill()` stays there, `Start()`
establishes the strengthened invariant, and no task can be reaped. -/
theorem step_Inv1 (s t : Sys) (op : Op) (hinv : Inv1 s) (hstep : step s op = some t) :
    (op.isStart = false → Inv1 t) ∧ (op.isStart = true → Inv2 t) := by
  obtain ⟨ht, hr, he, hs⟩ := hinv
  cases op with
  | start env junk =>
    refine ⟨by simp [Op.isStart], fun _ => ?_⟩
    simp only [step] at hstep
    by_cases hret : (Start s.proc env junk).returned = true
    · rw [if_pos hret] at hstep
      cases hstep
      obtain ⟨f1, f2, -⟩ := Start_frame s.proc env junk
      have hre : (if StartOk s.proc.info env = true then false else s.reaped) = false := by
        split_ifs <;> simp [hr]
      exact ⟨⟨by simp [f1, he], fun _ => ⟨by rw [f1, he], by rw [f2, hs]⟩⟩, fun _ => hre⟩
    · rw [if_neg hret] at hstep
      exact absurd hstep (by simp)
  | reap env =>
    simp [step, ht] at hstep
  | kill env =>
    refine ⟨fun _ => ?_, by simp [Op.isStart]⟩
    have hex : HasExited s.proc = false := by simp [HasExited, he, hs]
    simp only [step] at hstep
    split_ifs at hstep with hret
    cases hstep
    by_cases hkr : env.kill = 0
    · have hk : Kill s.proc env = Kill_join s.proc env [Event.kill s.proc.pid SIGKILL] := by
        simp [Kill, hex, hkr]
      have hj : Kill_join s.proc env [Event.kill s.proc.pid SIGKILL] =
          ⟨s.proc, [Event.kill s.proc.pid SIGKILL] ++ _close_fd s.proc, true⟩ := by
        simp [Kill_join, ht]
      simp only [hk, hj, Inv1, ht, hr, he, hs]
      simp
    · have hk : Kill s.proc env =
          ⟨FAIL s.proc ("Failed to kill child process. (" ++ env.errstr ++ ")"),
            [Event.kill s.proc.pid SIGKILL], true⟩ := by
        simp [Kill, hex, hkr]
      simp only [hk, Inv1, FAIL, ht, hr, he, hs]
      simp

/-- Sequences with at most one `Start()`, from the situation before any
launch, end in a state with the strengthened invariant. -/
theorem runOps_Inv1 (ops : List Op) :
    ∀ s t, Inv1 s → ops.countP Op.isStart ≤ 1 → runOps s ops = some t → Inv2 t := by
  induction ops with
  | nil =>
    intro s t hs _ h
    simp only [runOps, Option.some.injEq] at h
    exact h ▸ Inv1_Inv2 s hs
  | cons op ops ih =>
    intro s t hs hc h
    simp only [runOps] at h
    split at h
    · rename_i s1 hs1
      obtain ⟨k1, k2⟩ := step_Inv1 s s1 op hs hs1
      rcases hop : op.isStart
      · have hc2 : ops.countP Op.isStart ≤ 1 := by
          simpa [List.countP_cons, hop] using hc
        exact ih s1 t (k1 hop) hc2 h
      · have hc2 : ops.countP Op.isStart = 0 := by
          simp only [List.countP_cons, hop, if_true] at hc
          omega
        exact runOps_preserves_Inv2 ops s1 t (k2 hop) hc2 h
    · exact absurd h (by simp)

/-- In the child, once every requested pipe was created, `Start()` calls `exec`
with the array of lines 62-68. -/
theorem Start_child_exec_mem (p : Process) (env : StartEnv) (junk : Option String)
    (hp : pipesOk p.info env = true) (hf : env.fork = 0) :
    Event.exec p.info.UsePathEnv (c_str p.info.ProcessPath) (Start_args p.info junk) ∈
      (Start p env junk).events := by
  have h := Start_exec p env junk
  rw [if_pos ⟨hp, hf⟩] at h
  have hm : Event.exec p.info.UsePathEnv (c_str p.info.ProcessPath)
      (Start_args p.info junk) ∈
      (Start p env junk).events.filter Event.isExec := by rw [h]; simp
  exact (List.mem_filter.mp hm).1

/-- The array of lines 62-68 for the sample configuration `cfgAll`. -/
theorem Start_args_sample :
    Start_args cfgAll none =
      #[CharPtr.dangling ['s', 'h'], CharPtr.live ['-', 'c'],
        CharPtr.live ['e', 'x', 'i', 't', ' ', '4', '2'], CharPtr.null] := by
  have h1 : c_str "sh" = ['s', 'h'] := by decide
  have h2 : c_str "-c" = ['-', 'c'] := by decide
  have h3 : c_str "exit 42" = ['e', 'x', 'i', 't', ' ', '4', '2'] := by decide
  simp [Start_args, Start_argLoop, cfgAll, Array.setD, Array.set, mkArray, h1, h2, h3,
    CharPtr.ofJunk]

/-! ## Claims C1 to C10 -/

/-- Claim C1, evaluated on the code: with standard input redirected, a
successful `Start()` followed by one `Kill()` passes the read end of the input
pipe (descriptor 3) to `close` twice, once at line 79 and once more at line
25; the claim asks for exactly once. -/
theorem Start_then_Kill_closes_read_end_twice :
    StartOk cfgIn envOk = true ∧ startedIn.returned = true ∧
    startedIn.proc.fail = false ∧ startedIn.proc.in_ = (3, 4) ∧
    (Kill startedIn.proc killOk).returned = true ∧
    closeCount 3 startedIn.events = 1 ∧
    closeCount 3 (Kill startedIn.proc killOk).events = 1 ∧
    closeCount 3 (startedIn.events ++ (Kill startedIn.proc killOk).events) = 2 := by
  decide

/-- Claim C2, evaluated on the code: after one `Kill()` has released the input
stream and both descriptors of its pipe, a second `Kill()` deletes the same
stream and closes the same two descriptors again; the claim asks for a second
call that releases nothing. -/
theorem second_Kill_releases_again :
    (Kill startedIn.proc killOk).events =
      [Event.kill 100 SIGKILL, Event.join,
        Event.deleteStream Slot.inp, Event.close 3, Event.close 4] ∧
    (Kill (Kill startedIn.proc killOk).proc killOk).events =
      [Event.deleteStream Slot.inp, Event.close 3, Event.close 4] := by
  decide

/-- Claim C3, evaluated on the code: when the child has not been reaped and
`kill` fails, `Kill()` records the failure and returns at once: the only call
it makes is `kill`, the reaping task is not joined (the thread stays joinable)
and nothing is released; the claim asks for the cleanup to be completed. -/
theorem Kill_failure_skips_cleanup :
    HasExited startedIn.proc = false ∧
    startedIn.proc.wait_thread = Thread.running ∧
    (Kill startedIn.proc killFails).returned = true ∧
    (Kill startedIn.proc killFails).proc.fail = true ∧
    (Kill startedIn.proc killFails).events = [Event.kill 100 SIGKILL] ∧
    (Kill startedIn.proc killFails).proc.wait_thread = Thread.running ∧
    Event.join ∉ (Kill startedIn.proc killFails).events ∧
    closeCount 4 (Kill startedIn.proc killFails).events = 0 := by
  decide

/-- Claim C4: if the creation of a requested pipe (input, output or error)
fails, `Start()` returns with `fail` set and a non-empty reason, and has made
no call to `fork`. -/
theorem Start_pipe_failure (p : Process) (env : StartEnv) (junk : Option String)
    (h : (p.info.RedirectStandardInput = true ∧ env.pipe_in = none) ∨
      (p.info.RedirectStandardOutput = true ∧ env.pipe_out = none) ∨
      (p.info.RedirectStandardError = true ∧ env.pipe_err = none)) :
    (Start p env junk).returned = true ∧
    (Start p env junk).proc.fail = true ∧
    (Start p env junk).proc.reason ≠ "" ∧
    ∀ r, Event.fork r ∉ (Start p env junk).events := by
  rcases hi : p.info.RedirectStandardInput <;> rcases ho : p.info.RedirectStandardOutput <;>
    rcases he : p.info.RedirectStandardError <;>
    rcases hpi : env.pipe_in <;> rcases hpo : env.pipe_out <;> rcases hpe : env.pipe_err <;>
    simp_all [Start, pipe, FAIL]

/-- Claim C4 at a concrete input: input redirected, the first `pipe` fails. -/
theorem Start_pipe_failure_witness :
    ((Process.blank cfgIn (-1) (0, 0)).info.RedirectStandardInput = true ∧
      envNoPipe.pipe_in = none) ∧
    ((Start (Process.blank cfgIn (-1) (0, 0)) envNoPipe none).returned = true ∧
    (Start (Process.blank cfgIn (-1) (0, 0)) envNoPipe none).proc.fail = true ∧
    (Start (Process.blank cfgIn (-1) (0, 0)) envNoPipe none).proc.reason ≠ "" ∧
    ∀ r, Event.fork r ∉ (Start (Process.blank cfgIn (-1) (0, 0)) envNoPipe none).events) :=
  ⟨⟨rfl, rfl⟩,
    Start_pipe_failure (Process.blank cfgIn (-1) (0, 0)) envNoPipe none (Or.inl ⟨rfl, rfl⟩)⟩

/-- Claim C5: on a freshly started Process (constructed empty, `Start()`
succeeded), when the polling loop of the reaping task, after any number of
idle polls, receives a status that reports a normal exit with code `c`, the
task returns with the exit code equal to `c`, the termination signal unset and
no failure recorded; such a `c` lies between 0 and 255. -/
theorem wait_proc_normal_exit (info : ProcessConfig) (pid0 : Int) (fds0 : Fd × Fd)
    (senv : StartEnv) (junk : Option String) (wenv : WaitEnv)
    (idle rest : List (Int × Int)) (st c : Int)
    (hstart : StartOk info senv = true)
    (hidle : ∀ x ∈ idle, x.1 = 0)
    (hpolls : wenv.polls =
      idle ++ ((Start (Process.blank info pid0 fds0) senv junk).proc.pid, st) :: rest)
    (hexit : WIFEXITED st = true) (hcode : WEXITSTATUS st = c) :
    (_wait_proc (Start (Process.blank info pid0 fds0) senv junk).proc wenv).map
      (fun q => (q._exc, q._sig, q.fail)) = some (some c, none, false) ∧
    0 ≤ c ∧ c ≤ 255 := by
  obtain ⟨-, hpid, hfail, -⟩ :=
    Start_ok_state (Process.blank info pid0 fds0) senv junk hstart rfl
  obtain ⟨-, hsig, -⟩ := Start_frame (Process.blank info pid0 fds0) senv junk
  have hf : 0 < senv.fork := by
    simp only [StartOk, Bool.and_eq_true, decide_eq_true_eq] at hstart
    exact hstart.2
  rw [hpid] at hpolls
  have hne : senv.fork ≠ 0 := by omega
  have hne1 : senv.fork ≠ -1 := by omega
  have hl := waitLoop_idle idle rest senv.fork st hidle hne
  refine ⟨?_, ?_⟩
  · simp only [_wait_proc, hpolls, hl]
    simp only [hne1, if_false, hexit, if_true, hcode, Option.map, Option.some.injEq,
      Prod.mk.injEq, true_and]
    exact ⟨hsig, hfail⟩
  · simp only [WEXITSTATUS] at hcode
    omega

/-- Claim C5 at a concrete input: one idle poll, then the status of
`exit(42)`. -/
theorem wait_proc_normal_exit_witness :
    (StartOk cfgIn envOk = true ∧ WIFEXITED (W_EXITCODE 42 0) = true ∧
      WEXITSTATUS (W_EXITCODE 42 0) = 42) ∧
    ((_wait_proc (Start (Process.blank cfgIn (-1) (0, 0)) envOk none).proc waitExit42).map
      (fun q => (q._exc, q._sig, q.fail)) = some (some 42, none, false) ∧
    (0 : Int) ≤ 42 ∧ (42 : Int) ≤ 255) :=
  ⟨by decide,
    wait_proc_normal_exit cfgIn (-1) (0, 0) envOk none waitExit42 [(0, 0)] []
      (W_EXITCODE 42 0) 42 (by decide) (by decide) (by decide) (by decide) (by decide)⟩

/-- Claim C6, as stated, fails on the code: `Start()`, reaping (exit code 0),
`Kill()`, `Start()` again, reaping (killed by signal 9) on one instance leaves
both the exit code and the termination signal set. -/
theorem relaunch_sets_both_outcomes :
    (runOps (Sys.blank cfgIn (-1) (0, 0)) relaunchOps).map
      (fun s => (s.proc._exc, s.proc._sig)) = some (some 0, some 9) := by
  decide

/-- Claim C6, amended: in every state reached from a freshly constructed
Process by a sequence of `Start()`, background reaping and `Kill()` operations
that calls `Start()` at most once, exit code and termination signal are not
both set, and both are empty as long as the child has not been reaped. -/
theorem outcome_invariant_single_launch (info : ProcessConfig) (pid0 : Int)
    (fds0 : Fd × Fd) (ops : List Op) (t : Sys)
    (hone : ops.countP Op.isStart ≤ 1)
    (hrun : runOps (Sys.blank info pid0 fds0) ops = some t) : OutcomeInv t :=
  (runOps_Inv1 ops (Sys.blank info pid0 fds0) t ⟨rfl, rfl, rfl, rfl⟩ hone hrun).1

/-- Claim C6, amended, at a concrete input: one launch, the child exits with
code 0 and is reaped, then `Kill()` runs twice. -/
theorem outcome_invariant_single_launch_witness :
    (singleLaunchOps.countP Op.isStart ≤ 1 ∧
      runOps (Sys.blank cfgIn (-1) (0, 0)) singleLaunchOps = some singleLaunchEnd) ∧
    OutcomeInv singleLaunchEnd :=
  ⟨by decide,
    outcome_invariant_single_launch cfgIn (-1) (0, 0) singleLaunchOps singleLaunchEnd
      (by decide) (by decide)⟩

/-- What the child really passes to `exec`: an array of `n + 2` entries whose
entry 0 points into the destroyed temporary of line 64, whose entry `i` points
at argument `i - 1` for `1 ≤ i ≤ n`, and whose entry `n + 1` is the null
pointer. -/
theorem Start_exec_argv_shape (p : Process) (env : StartEnv) (junk : Option String)
    (usePath : Bool) (path : List Char) (argv : Array CharPtr)
    (h : Event.exec usePath path argv ∈ (Start p env junk).events) :
    argv.size = p.info.Arguments.size + 2 ∧
    argv[0]? =
      some (CharPtr.dangling (c_str (match p.info.ProcessName with
        | some displayName => displayName
        | none => p.info.ProcessPath))) ∧
    (∀ i (h1 : 1 ≤ i) (h2 : i ≤ p.info.Arguments.size),
      argv[i]? = some (CharPtr.live (c_str (p.info.Arguments.get ⟨i - 1, by omega⟩)))) ∧
    argv[p.info.Arguments.size + 1]? = some CharPtr.null := by
  have hm : Event.exec usePath path argv ∈ (Start p env junk).events.filter Event.isExec :=
    List.mem_filter.mpr ⟨h, rfl⟩
  rw [Start_exec] at hm
  split_ifs at hm
  · simp only [List.mem_singleton, Event.exec.injEq] at hm
    obtain ⟨-, -, rfl⟩ := hm
    exact Start_args_spec p.info junk
  · simp at hm

/-- Claim C7, evaluated on the code: for the display name `sh` and the
arguments `-c`, `exit 42`, the array that the child passes to `exec` has four
entries, of which the two arguments and the terminator are as the claim says,
but entry 0 is a pointer into the temporary string of line 64, destroyed
before the call at line 70, and not a pointer at the display name. -/
theorem Start_exec_argv0_dangling :
    Event.exec true ['/', 'b', 'i', 'n', '/', 's', 'h'] (Start_args cfgAll none) ∈
      (Start (Process.blank cfgAll (-1) (0, 0)) envChild none).events ∧
    Start_args cfgAll none =
      #[CharPtr.dangling ['s', 'h'], CharPtr.live ['-', 'c'],
        CharPtr.live ['e', 'x', 'i', 't', ' ', '4', '2'], CharPtr.null] ∧
    (Start_args cfgAll none)[0]? ≠ some (CharPtr.live ['s', 'h']) := by
  have hp : c_str "/bin/sh" = ['/', 'b', 'i', 'n', '/', 's', 'h'] := by decide
  have hm := Start_child_exec_mem (Process.blank cfgAll (-1) (0, 0)) envChild none
    (by decide) rfl
  have hs := Start_args_sample
  refine ⟨?_, hs, ?_⟩
  · rw [← hp]; exact hm
  · rw [hs]; decide

/-- Claim C8: `Start()` starts the reaping task exactly once when every
requested pipe was created and `fork` returned a child, and not at all
otherwise (a pipe creation failed, `fork` returned an error, or the code is
running in the child). -/
theorem Start_reaping_task_iff (p : Process) (env : StartEnv) (junk : Option String) :
    (Start p env junk).events.count Event.threadStart =
      if StartOk p.info env = true then 1 else 0 := by
  rcases hi : p.info.RedirectStandardInput <;> rcases ho : p.info.RedirectStandardOutput <;>
    rcases he : p.info.RedirectStandardError <;>
    rcases hpi : env.pipe_in with _ | ⟨a1, a2⟩ <;>
    rcases hpo : env.pipe_out with _ | ⟨b1, b2⟩ <;>
    rcases hpe : env.pipe_err with _ | ⟨c1, c2⟩ <;>
    simp [Start, pipe, Start_streams, Start_fork_count, StartOk, pipesOk, hi, ho, he, hpi, hpo, hpe]

/-- Claim C9: after a successful `Start()` on a freshly constructed Process,
each of the three stream objects exists exactly when its redirection flag is
set; the input stream is bound to the write end of its pipe, the output and
error streams to the read end of theirs, and the parent has closed the other
end of each requested pipe. -/
theorem Start_stream_wiring (info : ProcessConfig) (pid0 : Int) (fds0 : Fd × Fd) (env : StartEnv)
    (junk : Option String) (h : StartOk info env = true) :
    (Start (Process.blank info pid0 fds0) env junk).returned = true ∧
    ((Start (Process.blank info pid0 fds0) env junk).proc._inp.isSome
      = info.RedirectStandardInput) ∧
    ((Start (Process.blank info pid0 fds0) env junk).proc._out.isSome
      = info.RedirectStandardOutput) ∧
    ((Start (Process.blank info pid0 fds0) env junk).proc._err.isSome
      = info.RedirectStandardError) ∧
    (info.RedirectStandardInput = true → ∀ rd wr, env.pipe_in = some (rd, wr) →
      (Start (Process.blank info pid0 fds0) env junk).proc._inp.map (fun s => s.fd) = some wr ∧
      Event.close rd ∈ (Start (Process.blank info pid0 fds0) env junk).events) ∧
    (info.RedirectStandardOutput = true → ∀ rd wr, env.pipe_out = some (rd, wr) →
      (Start (Process.blank info pid0 fds0) env junk).proc._out.map (fun s => s.fd) = some rd ∧
      Event.close wr ∈ (Start (Process.blank info pid0 fds0) env junk).events) ∧
    (info.RedirectStandardError = true → ∀ rd wr, env.pipe_err = some (rd, wr) →
      (Start (Process.blank info pid0 fds0) env junk).proc._err.map (fun s => s.fd) = some rd ∧
      Event.close wr ∈ (Start (Process.blank info pid0 fds0) env junk).events) := by
  simp only [StartOk, pipesOk, Bool.and_eq_true, Bool.or_eq_true, decide_eq_true_eq] at h
  obtain ⟨⟨⟨h1, h2⟩, h3⟩, hf⟩ := h
  rcases hi : info.RedirectStandardInput <;> rcases ho : info.RedirectStandardOutput <;>
    rcases he : info.RedirectStandardError <;>
    rcases hpi : env.pipe_in with _ | ⟨a1, a2⟩ <;>
    rcases hpo : env.pipe_out with _ | ⟨b1, b2⟩ <;>
    rcases hpe : env.pipe_err with _ | ⟨c1, c2⟩ <;>
    simp_all [Start, pipe, Start_streams, Start_fork_parent, Start_parent, Process.blank,
      Start_closeUnused]

/-- Claim C9 at a concrete input: all three redirections, pipes on
descriptors 3 to 8. -/
theorem Start_stream_wiring_witness :
    StartOk cfgAll envOk = true ∧
    (Start (Process.blank cfgAll (-1) (0, 0)) envOk none).proc._inp = some ⟨4⟩ ∧
    (Start (Process.blank cfgAll (-1) (0, 0)) envOk none).proc._out.map (fun s => s.fd)
      = some 5 ∧
    (Start (Process.blank cfgAll (-1) (0, 0)) envOk none).proc._err.map (fun s => s.fd)
      = some 7 ∧
    ((Start (Process.blank cfgAll (-1) (0, 0)) envOk none).proc._inp.isSome
      = cfgAll.RedirectStandardInput ∧
    Event.close 3 ∈ (Start (Process.blank cfgAll (-1) (0, 0)) envOk none).events) :=
  ⟨by decide, by decide, by decide, by decide,
    (Start_stream_wiring cfgAll (-1) (0, 0) envOk none (by decide)).2.1,
    ((Start_stream_wiring cfgAll (-1) (0, 0) envOk none (by decide)).2.2.2.2.1
      rfl 3 4 rfl).2⟩

end Ipc

namespace Ipc

/-! ## Claims C11, C12 and C16 -/

/-- From `fork` on, `Start()` neither ties nor replaces a stream. -/
theorem Start_fork_tie (p : Process) (env : StartEnv) (junk : Option String)
    (ev : List Event) :
    (Start_fork p env junk ev).events.count Event.tieStreams = ev.count Event.tieStreams ∧
    (Start_fork p env junk ev).proc._out = p._out ∧
    (Start_fork p env junk ev).proc._inp = p._inp := by
  rcases lt_trichotomy env.fork 0 with hf | hf | hf
  · simp [Start_fork, hf, FAIL]
  · simp only [Start_fork, hf, lt_self_iff_false, if_false, if_true, Start_child]
    rcases hi : p.info.RedirectStandardInput <;> rcases ho : p.info.RedirectStandardOutput <;>
      rcases he : p.info.RedirectStandardError <;> rcases hx : env.exec_fails <;>
      simp [Start_childDup, _close_fd, hi, ho, he, FAIL]
  · have h1 : ¬ env.fork < 0 := by omega
    have h2 : env.fork ≠ 0 := by omega
    simp only [Start_fork, h1, h2, if_false, Start_parent]
    rcases hi : p.info.RedirectStandardInput <;> rcases ho : p.info.RedirectStandardOutput <;>
      rcases he : p.info.RedirectStandardError <;> rcases ht : p.wait_thread <;>
      simp [Start_closeUnused, hi, ho, he]

/-- With no outcome recorded, `Kill()` calls `kill(pid, SIGKILL)`. -/
theorem Kill_not_exited_sends_kill (p : Process) (env : KillEnv) (h : HasExited p = false) :
    Event.kill p.pid SIGKILL ∈ (Kill p env).events := by
  simp only [Kill, h, Bool.false_eq_true, if_false]
  split_ifs
  · simp
  · rw [Kill_join_events]; simp

/-- Claim C11, evaluated on the code: with standard input redirected, the pipe
created and `fork` failing, `Start()` returns with `fail` set while the input
stream created at line 44 is still held by the object, and nothing has been
deleted or closed; the claim asks for a failed `Start()` to leave no stream. -/
theorem Start_fork_failure_keeps_streams :
    pipesOk cfgIn envForkFails = true ∧ envForkFails.fork < 0 ∧
    (Start (Process.blank cfgIn (-1) (0, 0)) envForkFails none).returned = true ∧
    (Start (Process.blank cfgIn (-1) (0, 0)) envForkFails none).proc.fail = true ∧
    (Start (Process.blank cfgIn (-1) (0, 0)) envForkFails none).proc._inp = some ⟨4⟩ ∧
    (Start (Process.blank cfgIn (-1) (0, 0)) envForkFails none).events =
      [Event.pipe (some (3, 4)), Event.newStream Slot.inp 4, Event.fork (-1)] := by
  decide

/-- Claim C12, as stated, fails on the code: with both redirections requested
and the first `pipe` failing, `Start()` returns at line 40 and ties
nothing. -/
theorem Start_pipe_failure_no_tie :
    cfgInOut.RedirectStandardInput = true ∧ cfgInOut.RedirectStandardOutput = true ∧
    (Start (Process.blank cfgInOut (-1) (0, 0)) envNoPipe none).returned = true ∧
    (Start (Process.blank cfgInOut (-1) (0, 0)) envNoPipe none).events.count Event.tieStreams = 0 ∧
    (Start (Process.blank cfgInOut (-1) (0, 0)) envNoPipe none).proc.outputTied = false := by
  decide

/-- Claim C12, amended: `Start()` on a freshly constructed Process ties the
output stream to the input stream exactly when every requested pipe was
created and both `RedirectStandardInput` and `RedirectStandardOutput` are set;
the stream tied to is then the input stream of the object, and in every other
case no tie is made. -/
theorem Start_tie_iff (info : ProcessConfig) (pid0 : Int) (fds0 : Fd × Fd) (env : StartEnv)
    (junk : Option String) :
    (Start (Process.blank info pid0 fds0) env junk).events.count Event.tieStreams =
      (if pipesOk info env = true ∧ info.RedirectStandardInput = true ∧
        info.RedirectStandardOutput = true then 1 else 0) ∧
    (Start (Process.blank info pid0 fds0) env junk).proc.outputTied =
      (pipesOk info env && info.RedirectStandardInput && info.RedirectStandardOutput) ∧
    ((Start (Process.blank info pid0 fds0) env junk).proc._out.bind (fun o => o.tie) =
      if pipesOk info env = true ∧ info.RedirectStandardInput = true ∧
        info.RedirectStandardOutput = true
      then (Start (Process.blank info pid0 fds0) env junk).proc._inp else none) := by
  rcases hi : info.RedirectStandardInput <;> rcases ho : info.RedirectStandardOutput <;>
    rcases he : info.RedirectStandardError <;>
    rcases hpi : env.pipe_in with _ | ⟨a1, a2⟩ <;>
    rcases hpo : env.pipe_out with _ | ⟨b1, b2⟩ <;>
    rcases hpe : env.pipe_err with _ | ⟨c1, c2⟩ <;>
    simp [Start, pipe, Start_streams, Start_fork_tie, pipesOk, hi, ho, he, hpi, hpo, hpe,
      Process.blank, Process.outputTied, FAIL]

/-- Claim C16, evaluated on the code: on a Process that was never started, on
one whose `Start()` failed at a `pipe`, and on one whose `Start()` failed at
`fork`, no outcome is recorded, so `Kill()` calls `kill(pid, SIGKILL)`, in the
last case with `pid = -1`, which addresses every process the caller may
signal; the claim asks for no signal at all. -/
theorem Kill_without_child_sends_signal :
    HasExited (Process.blank cfgIn 0 (0, 0)) = false ∧
    (Kill (Process.blank cfgIn 0 (0, 0)) killOk).events.filter Event.isKill =
      [Event.kill 0 SIGKILL] ∧
    (Start (Process.blank cfgIn 0 (0, 0)) envNoPipe none).proc.fail = true ∧
    (Kill (Start (Process.blank cfgIn 0 (0, 0)) envNoPipe none).proc killOk).events.filter
      Event.isKill = [Event.kill 0 SIGKILL] ∧
    (Start (Process.blank cfgIn 0 (0, 0)) envForkFails none).proc.fail = true ∧
    (Kill (Start (Process.blank cfgIn 0 (0, 0)) envForkFails none).proc killOk).events.filter
      Event.isKill = [Event.kill (-1) SIGKILL] := by
  decide

end Ipc

namespace Clock

/-! ## Lemmas on `ps_clock` -/

/-- A value inside the range of the type is kept. -/
theorem checked_of_range (x : Int) (h1 : INT64_MIN ≤ x) (h2 : x ≤ INT64_MAX) :
    checked x = some x := by
  simp [checked, isInt64, h1, h2]

/-- Division of a non-negative value by a positive one stays in range and is
the floor quotient. -/
theorem div64_nonneg (a b : Int) (ha : 0 ≤ a) (hb : 0 < b) (hmax : a ≤ INT64_MAX) :
    div64 a b = some (a / b) := by
  have hne : b ≠ 0 := by omega
  have hq : Int.tdiv a b = a / b := Int.tdiv_eq_ediv ha (by omega)
  have h0 : 0 ≤ a / b := Int.ediv_nonneg ha (by omega)
  have h1 : a / b ≤ a := Int.ediv_le_self b ha
  simp only [div64, hne, if_false, hq]
  exact checked_of_range _ (by simp only [INT64_MIN]; omega) (by omega)

/-- Remainder of a non-negative value by a positive one is the usual
remainder. -/
theorem mod64_nonneg (a b : Int) (ha : 0 ≤ a) (hb : 0 < b) :
    mod64 a b = some (a % b) := by
  have hne : b ≠ 0 := by omega
  have hne2 : ¬ (a = INT64_MIN ∧ b = -1) := by omega
  simp only [mod64, hne, if_false, hne2, Int.tmod_eq_emod ha (by omega : 0 ≤ b)]

/-- In clock mode, from a raw time within the day, `add_seconds(n)` with
`n ≥ 0` completes without leaving the range of the type and stores
`(t + n) mod 86400`. -/
theorem add_seconds_clock (c : ps_clock) (n : Int) (hm : c.m_clock_mode = clock_mode.clock)
    (h0 : 0 ≤ c.m_time) (h1 : c.m_time < 86400) (hn0 : 0 ≤ n) (hn1 : n ≤ INT64_MAX) :
    add_seconds c n = some ⟨(c.m_time + n) % 86400, clock_mode.clock⟩ := by
  obtain ⟨t, mode⟩ := c
  simp only at hm h0 h1
  subst hm
  have e1 : div64 n hour_multiplier = some (n / 3600) := div64_nonneg n _ hn0 (by decide) hn1
  have e2 : mod64 n hour_multiplier = some (n % 3600) := mod64_nonneg n _ hn0 (by decide)
  have e3 : div64 (n % 3600) minute_multiplier = some (n % 3600 / 60) :=
    div64_nonneg _ _ (by omega) (by decide) (by simp only [INT64_MAX]; omega)
  have e4 : mod64 n second_mod = some (n % 60) := mod64_nonneg n _ hn0 (by decide)
  have e5 : mod64 (n / 3600) hour24_mod = some (n / 3600 % 24) :=
    mod64_nonneg _ _ (by omega) (by decide)
  have e6 : mod64 (n % 3600 / 60) minute_mod = some (n % 3600 / 60 % 60) :=
    mod64_nonneg _ _ (by omega) (by decide)
  have e7 : mod64 (n % 60) second_mod = some (n % 60) :=
    (mod64_nonneg _ _ (by omega) (by decide)).trans
      (congrArg some (by simp only [second_mod]; omega))
  have e8 : mul64 (n / 3600 % 24) hour_multiplier = some (n / 3600 % 24 * 3600) :=
    checked_of_range _ (by simp only [INT64_MIN, hour_multiplier]; omega)
      (by simp only [INT64_MAX, hour_multiplier]; omega)
  have e9 : add64 t (n / 3600 % 24 * 3600) = some (t + n / 3600 % 24 * 3600) :=
    checked_of_range _ (by simp only [INT64_MIN]; omega) (by simp only [INT64_MAX]; omega)
  have e10 : mul64 (n % 3600 / 60 % 60) minute_multiplier = some (n % 3600 / 60 % 60 * 60) :=
    checked_of_range _ (by simp only [INT64_MIN, minute_multiplier]; omega)
      (by simp only [INT64_MAX, minute_multiplier]; omega)
  have e11 : add64 (t + n / 3600 % 24 * 3600) (n % 3600 / 60 % 60 * 60) =
      some (t + n / 3600 % 24 * 3600 + n % 3600 / 60 % 60 * 60) :=
    checked_of_range _ (by simp only [INT64_MIN]; omega) (by simp only [INT64_MAX]; omega)
  have e12 : add64 (t + n / 3600 % 24 * 3600 + n % 3600 / 60 % 60 * 60) (n % 60) =
      some (t + n / 3600 % 24 * 3600 + n % 3600 / 60 % 60 * 60 + n % 60) :=
    checked_of_range _ (by simp only [INT64_MIN]; omega) (by simp only [INT64_MAX]; omega)
  have e13 : mod64 (t + n / 3600 % 24 * 3600 + n % 3600 / 60 % 60 * 60 + n % 60) clock_mod =
      some ((t + n / 3600 % 24 * 3600 + n % 3600 / 60 % 60 * 60 + n % 60) % 86400) :=
    mod64_nonneg _ _ (by omega) (by decide)
  have e14 : (t + n / 3600 % 24 * 3600 + n % 3600 / 60 % 60 * 60 + n % 60) % 86400 =
      (t + n) % 86400 := by omega
  simp [add_seconds, m_add_time, reduce_hms, m_normalize, e1, e2, e3, e4, e5, e6, e7, e8, e9,
    e10, e11, e12, e13, e14]

/-- In clock mode, from a raw time within the day, `sub_seconds(n)` with
`n ≥ 0` completes without leaving the range of the type and stores
`(t - n) mod 86400`. -/
theorem sub_seconds_clock (c : ps_clock) (n : Int) (hm : c.m_clock_mode = clock_mode.clock)
    (h0 : 0 ≤ c.m_time) (h1 : c.m_time < 86400) (hn0 : 0 ≤ n) (hn1 : n ≤ INT64_MAX) :
    sub_seconds c n = some ⟨(c.m_time - n) % 86400, clock_mode.clock⟩ := by
  obtain ⟨t, mode⟩ := c
  simp only at hm h0 h1
  subst hm
  have e1 : div64 n hour_multiplier = some (n / 3600) := div64_nonneg n _ hn0 (by decide) hn1
  have e2 : mod64 n hour_multiplier = some (n % 3600) := mod64_nonneg n _ hn0 (by decide)
  have e3 : div64 (n % 3600) minute_multiplier = some (n % 3600 / 60) :=
    div64_nonneg _ _ (by omega) (by decide) (by simp only [INT64_MAX]; omega)
  have e4 : mod64 n second_mod = some (n % 60) := mod64_nonneg n _ hn0 (by decide)
  have e5 : mod64 (n / 3600) hour24_mod = some (n / 3600 % 24) :=
    mod64_nonneg _ _ (by omega) (by decide)
  have e6 : mod64 (n % 3600 / 60) minute_mod = some (n % 3600 / 60 % 60) :=
    mod64_nonneg _ _ (by omega) (by decide)
  have e7 : mod64 (n % 60) second_mod = some (n % 60) :=
    (mod64_nonneg _ _ (by omega) (by decide)).trans
      (congrArg some (by simp only [second_mod]; omega))
  have e0 : add64 t clock_mod = some (t + 86400) :=
    checked_of_range _ (by simp only [INT64_MIN, clock_mod]; omega)
      (by simp only [INT64_MAX, clock_mod]; omega)
  have e8 : mul64 (n / 3600 % 24) hour_multiplier = some (n / 3600 % 24 * 3600) :=
    checked_of_range _ (by simp only [INT64_MIN, hour_multiplier]; omega)
      (by simp only [INT64_MAX, hour_multiplier]; omega)
  have e10 : mul64 (n % 3600 / 60 % 60) minute_multiplier = some (n % 3600 / 60 % 60 * 60) :=
    checked_of_range _ (by simp only [INT64_MIN, minute_multiplier]; omega)
      (by simp only [INT64_MAX, minute_multiplier]; omega)
  have e11 : add64 (n / 3600 % 24 * 3600) (n % 3600 / 60 % 60 * 60) =
      some (n / 3600 % 24 * 3600 + n % 3600 / 60 % 60 * 60) :=
    checked_of_range _ (by simp only [INT64_MIN]; omega) (by simp only [INT64_MAX]; omega)
  have e12 : add64 (n / 3600 % 24 * 3600 + n % 3600 / 60 % 60 * 60) (n % 60) =
      some (n / 3600 % 24 * 3600 + n % 3600 / 60 % 60 * 60 + n % 60) :=
    checked_of_range _ (by simp only [INT64_MIN]; omega) (by simp only [INT64_MAX]; omega)
  have e13 : sub64 (t + 86400) (n / 3600 % 24 * 3600 + n % 3600 / 60 % 60 * 60 + n % 60) =
      some (t + 86400 - (n / 3600 % 24 * 3600 + n % 3600 / 60 % 60 * 60 + n % 60)) :=
    checked_of_range _ (by simp only [INT64_MIN]; omega) (by simp only [INT64_MAX]; omega)
  have e14 : mod64 (t + 86400 - (n / 3600 % 24 * 3600 + n % 3600 / 60 % 60 * 60 + n % 60))
      clock_mod =
      some ((t + 86400 - (n / 3600 % 24 * 3600 + n % 3600 / 60 % 60 * 60 + n % 60)) % 86400) :=
    mod64_nonneg _ _ (by omega) (by decide)
  have e15 : (t + 86400 - (n / 3600 % 24 * 3600 + n % 3600 / 60 % 60 * 60 + n % 60)) % 86400 =
      (t - n) % 86400 := by omega
  simp [sub_seconds, m_sub_time, reduce_hms, m_normalize, e0, e1, e2, e3, e4, e5, e6, e7, e8,
    e10, e11, e12, e13, e14, e15]

/-- The validity test accepts exactly the triples below the three upper
bounds; it has no lower bound. -/
theorem is_valid_iff (h m s : Int) :
    is_valid h m s = true ↔ h < 24 ∧ m < 60 ∧ s < 60 := by
  simp only [is_valid, hour24_mod, minute_mod, second_mod]
  split_ifs <;> simp <;> omega

/-- Decimal digits of a number below ten. -/
theorem toDigits_lt_ten (k : Nat) (h : k < 10) : Nat.toDigits 10 k = [Nat.digitChar k] := by
  have h1 : k % 10 = k := Nat.mod_eq_of_lt h
  have h2 : k / 10 = 0 := Nat.div_eq_of_lt h
  simp [Nat.toDigits, Nat.toDigitsCore, h1, h2]

/-- Decimal digits of a number from ten to ninety-nine. -/
theorem toDigits_lt_hundred (k : Nat) (h1 : 10 ≤ k) (h2 : k < 100) :
    Nat.toDigits 10 k = [Nat.digitChar (k / 10), Nat.digitChar (k % 10)] := by
  have h3 : k / 10 ≠ 0 := by omega
  have h4 : k / 10 / 10 = 0 := by omega
  have h5 : k / 10 % 10 = k / 10 := by omega
  have hk : k + 1 = (k - 1) + 1 + 1 := by omega
  rw [Nat.toDigits, hk]
  simp [Nat.toDigitsCore, h3, h4, h5]

/-- An upper-case specifier writes a value below 100 with two digits. -/
theorem pad_two (k : Int) (h0 : 0 ≤ k) (h1 : k < 100) (r : List Char) :
    zero_pad r (to_string_i64 k) = r ++ two_digits k := by
  lift k to Nat using h0
  have hk : k < 100 := by omega
  have hn : ¬ ((k : Int) < 0) := by omega
  simp only [zero_pad, to_string_i64, hn, if_false, Int.toNat_ofNat, two_digits]
  by_cases h : k < 10
  · have hd : k / 10 = 0 := by omega
    have hm : k % 10 = k := by omega
    simp [toDigits_lt_ten k h, hd, hm, Nat.digitChar]
  · simp [toDigits_lt_hundred k (by omega) hk]

/-- The loop of lines 204-255 on the default format. -/
theorem format_default (hs ms ss us ams pms AMS PMS : List Char) (is_am : Bool)
    (r : List Char) :
    format_loop hs ms ss us ams pms AMS PMS is_am default_format r =
      zero_pad (zero_pad (zero_pad r hs ++ [':']) ms ++ [':']) ss := by
  have hf : default_format = ['%', 'H', ':', '%', 'M', ':', '%', 'S'] := by decide
  rw [hf]
  simp [format_loop, format_spec]

/-! ## Claims C13, C14, C17 and C18 -/

/-- Claim C13, evaluated on the code: `is_valid(-1, 0, 0)` returns true
although hour -1 lies outside the documented range 00:00:00 ~ 23:59:59; the
three comparisons of lines 97-99 are signed and only bound the values from
above. -/
theorem is_valid_accepts_negative :
    is_valid (-1) 0 0 = true ∧ isInt64 (-1) = true ∧
    ¬ ((0 : Int) ≤ -1 ∧ (-1 : Int) ≤ 23 ∧ (0 : Int) ≤ 0 ∧ (0 : Int) ≤ 59 ∧
      (0 : Int) ≤ 0 ∧ (0 : Int) ≤ 59) := by
  decide

/-- Claim C14: for a clock in clock mode whose raw time `t` satisfies
`0 ≤ t < 86400`, `to_string()` with the default format and abbreviations
returns the 8 characters `HH:MM:SS`, the two-digit zero-padded decimal values
of `t / 3600`, `(t mod 3600) / 60` and `t mod 60`. -/
theorem to_string_default (c : ps_clock) (hm : c.m_clock_mode = clock_mode.clock)
    (h0 : 0 ≤ c.m_time) (h1 : c.m_time < 86400) :
    to_string c default_format default_abbr = HHMMSS c.m_time ∧
    (to_string c default_format default_abbr).length = 8 := by
  obtain ⟨t, mode⟩ := c
  simp only at hm h0 h1
  have q1 : Int.tdiv t hour_multiplier = t / 3600 := Int.tdiv_eq_ediv h0 (by decide)
  have q2 : Int.tmod t hour_multiplier = t % 3600 := Int.tmod_eq_emod h0 (by decide)
  have q3 : Int.tdiv (t % 3600) minute_multiplier = t % 3600 / 60 :=
    Int.tdiv_eq_ediv (by omega) (by decide)
  have q4 : Int.tmod t second_mod = t % 60 := Int.tmod_eq_emod h0 (by decide)
  have a1 : ((t % 3600 / 60).natAbs : Int) = t % 3600 / 60 :=
    Int.natAbs_of_nonneg (by omega)
  have a2 : ((t % 60).natAbs : Int) = t % 60 := Int.natAbs_of_nonneg (by omega)
  have hneg : ¬ (t / 3600 < 0) := by omega
  have key : to_string ⟨t, mode⟩ default_format default_abbr = HHMMSS t := by
    simp only [to_string, get_time, get_hour12, q1, q2, q3, q4, a1, a2, hneg, decide_False,
      Bool.false_eq_true, if_false, default_abbr]
    rw [format_default, pad_two (t / 3600) (by omega) (by omega),
      pad_two (t % 3600 / 60) (by omega) (by omega), pad_two (t % 60) (by omega) (by omega)]
    simp [HHMMSS]
  exact ⟨key, by rw [key]; simp [HHMMSS, two_digits]⟩

/-- Claim C14 at a concrete input: raw time 3661 prints as `01:01:01`. -/
theorem to_string_default_witness :
    ((⟨3661, clock_mode.clock⟩ : ps_clock).m_clock_mode = clock_mode.clock ∧
      (0 : Int) ≤ 3661 ∧ (3661 : Int) < 86400 ∧ HHMMSS 3661 = "01:01:01".toList) ∧
    (to_string ⟨3661, clock_mode.clock⟩ default_format default_abbr = HHMMSS 3661 ∧
    (to_string ⟨3661, clock_mode.clock⟩ default_format default_abbr).length = 8) :=
  ⟨by decide, to_string_default ⟨3661, clock_mode.clock⟩ rfl (by decide) (by decide)⟩

/-- Claim C17: for a clock in clock mode whose raw time `t` satisfies
`0 ≤ t < 86400` and every 64-bit `n ≥ 0`, `add_seconds(n)` completes with no
intermediate result outside the range of `int64_t` and leaves the raw time
equal to `(t + n) mod 86400`, which lies within the day. -/
theorem add_seconds_mod (c : ps_clock) (n : Int) (hm : c.m_clock_mode = clock_mode.clock)
    (h0 : 0 ≤ c.m_time) (h1 : c.m_time < 86400) (hn0 : 0 ≤ n) (hn1 : n ≤ INT64_MAX) :
    add_seconds c n = some ⟨(c.m_time + n) % 86400, clock_mode.clock⟩ ∧
    0 ≤ (c.m_time + n) % 86400 ∧ (c.m_time + n) % 86400 < 86400 :=
  ⟨add_seconds_clock c n hm h0 h1 hn0 hn1, by omega, by omega⟩

/-- Claim C17 at a concrete input: one second before midnight plus the
greatest 64-bit number of seconds. -/
theorem add_seconds_mod_witness :
    ((⟨86399, clock_mode.clock⟩ : ps_clock).m_clock_mode = clock_mode.clock ∧
      (0 : Int) ≤ 86399 ∧ (86399 : Int) < 86400 ∧ (0 : Int) ≤ INT64_MAX) ∧
    (add_seconds ⟨86399, clock_mode.clock⟩ INT64_MAX =
      some ⟨(86399 + INT64_MAX) % 86400, clock_mode.clock⟩ ∧
    0 ≤ (86399 + INT64_MAX) % 86400 ∧ (86399 + INT64_MAX) % 86400 < 86400) :=
  ⟨by decide,
    add_seconds_mod ⟨86399, clock_mode.clock⟩ INT64_MAX rfl (by decide) (by decide)
      (by decide) (by decide)⟩

/-- Claim C18: for a clock in clock mode whose raw time `t` satisfies
`0 ≤ t < 86400` and every 64-bit `n ≥ 0`, `add_seconds(n)` followed by
`sub_seconds(n)` completes and restores the raw time `t`. -/
theorem add_then_sub_seconds (c : ps_clock) (n : Int) (hm : c.m_clock_mode = clock_mode.clock)
    (h0 : 0 ≤ c.m_time) (h1 : c.m_time < 86400) (hn0 : 0 ≤ n) (hn1 : n ≤ INT64_MAX) :
    (add_seconds c n).bind (fun d => sub_seconds d n) = some c := by
  rw [add_seconds_clock c n hm h0 h1 hn0 hn1]
  simp only [Option.some_bind]
  rw [sub_seconds_clock _ n rfl (by simp only; omega) (by simp only; omega) hn0 hn1]
  obtain ⟨t, mode⟩ := c
  simp only at hm h0 h1
  subst hm
  have : ((t + n) % 86400 - n) % 86400 = t := by omega
  simp [this]

/-- Claim C18 at a concrete input: ten seconds before midnight, one hour and
one minute added and taken away again, across midnight. -/
theorem add_then_sub_seconds_witness :
    ((⟨86390, clock_mode.clock⟩ : ps_clock).m_clock_mode = clock_mode.clock ∧
      add_seconds ⟨86390, clock_mode.clock⟩ 3660 = some ⟨3650, clock_mode.clock⟩) ∧
    (add_seconds ⟨86390, clock_mode.clock⟩ 3660).bind (fun d => sub_seconds d 3660) =
      some ⟨86390, clock_mode.clock⟩ :=
  ⟨by decide,
    add_then_sub_seconds ⟨86390, clock_mode.clock⟩ 3660 rfl (by decide) (by decide)
      (by decide) (by decide)⟩

end Clock

namespace MinMax

/-! ## Lemmas on `minmax` -/

/-- The result of `std::min` is below both arguments and is one of them. -/
theorem std_min_spec (a b : Int) :
    std_min a b ≤ a ∧ std_min a b ≤ b ∧ (std_min a b = a ∨ std_min a b = b) := by
  unfold std_min
  split_ifs <;> omega

/-- The result of `std::max` is above both arguments and is one of them. -/
theorem std_max_spec (a b : Int) :
    a ≤ std_max a b ∧ b ≤ std_max a b ∧ (std_max a b = a ∨ std_max a b = b) := by
  unfold std_max
  split_ifs <;> omega

/-- Feeding a list: the minimum only goes down, the maximum only goes up,
every fed value lies between them, each is the starting value or a fed value,
and the defaults are untouched. -/
theorem feed_bounds (x : minmax) (xs : List Int) :
    (feed x xs).m_min ≤ x.m_min ∧ x.m_max ≤ (feed x xs).m_max ∧
    (∀ v ∈ xs, (feed x xs).m_min ≤ v ∧ v ≤ (feed x xs).m_max) ∧
    ((feed x xs).m_min = x.m_min ∨ (feed x xs).m_min ∈ xs) ∧
    ((feed x xs).m_max = x.m_max ∨ (feed x xs).m_max ∈ xs) ∧
    (feed x xs).m_dmin = x.m_dmin ∧ (feed x xs).m_dmax = x.m_dmax := by
  induction xs generalizing x with
  | nil => simp [feed]
  | cons v vs ih =>
    have e : feed x (v :: vs) = feed (or_assign x v) vs := rfl
    rw [e]
    obtain ⟨h1, h2, h3, h4, h5, h6, h7⟩ := ih (or_assign x v)
    have y1 : (or_assign x v).m_min = std_min x.m_min v := rfl
    have y2 : (or_assign x v).m_max = std_max x.m_max v := rfl
    have y3 : (or_assign x v).m_dmin = x.m_dmin := rfl
    have y4 : (or_assign x v).m_dmax = x.m_dmax := rfl
    obtain ⟨m1, m2, m3⟩ := std_min_spec x.m_min v
    obtain ⟨n1, n2, n3⟩ := std_max_spec x.m_max v
    rw [y1] at h1 h4
    rw [y2] at h2 h5
    refine ⟨by omega, by omega, ?_, ?_, ?_, h6.trans y3, h7.trans y4⟩
    · intro w hw
      rcases List.mem_cons.mp hw with rfl | hw
      · exact ⟨by omega, by omega⟩
      · exact h3 w hw
    · rcases h4 with h4 | h4
      · rcases m3 with m3 | m3
        · left; omega
        · right; rw [h4, m3]; exact List.mem_cons_self _ _
      · right; exact List.mem_cons_of_mem _ h4
    · rcases h5 with h5 | h5
      · rcases n3 with n3 | n3
        · left; omega
        · right; rw [h5, n3]; exact List.mem_cons_self _ _
      · right; exact List.mem_cons_of_mem _ h5

/-- Right after `clear()`, with the defaults of the default constructor,
feeding a non-empty list of values of the type leaves its minimum and its
maximum. -/
theorem feed_after_clear (x : minmax) (lo hi : Int) (xs : List Int)
    (hd1 : x.m_dmin = hi) (hd2 : x.m_dmax = lo)
    (hne : xs ≠ []) (hr : ∀ v ∈ xs, lo ≤ v ∧ v ≤ hi) :
    holdsExtremes (feed (clear x) xs) xs := by
  obtain ⟨h1, h2, h3, h4, h5, -, -⟩ := feed_bounds (clear x) xs
  have c1 : (clear x).m_min = hi := hd1
  have c2 : (clear x).m_max = lo := hd2
  rw [c1] at h1 h4
  rw [c2] at h2 h5
  obtain ⟨v, hv⟩ := List.exists_mem_of_ne_nil xs hne
  have hv3 := h3 v hv
  have hvr := hr v hv
  refine ⟨?_, fun w hw => (h3 w hw).1, ?_, fun w hw => (h3 w hw).2⟩
  · rcases h4 with h4 | h4
    · have : (feed (clear x) xs).m_min = v := by omega
      rw [this]; exact hv
    · exact h4
  · rcases h5 with h5 | h5
    · have : (feed (clear x) xs).m_max = v := by omega
      rw [this]; exact hv
    · exact h5

/-! ## Claim C15 -/

/-- Claim C15, as stated, fails on the code: on a default-constructed 8-bit
signed tracker, `set_default(5, 3)` followed by `clear()` starts `m_min` at 3,
so after `operator|=` with 10 the tracker holds `m_min = 3`, which is not the
minimum of the list `[10]`. -/
theorem clear_after_set_default_misses_minimum :
    (feed (clear (set_default (construct_default ⟨0, 0, 0, 0⟩ (-128) 127) 5 3)) [10]).m_min
      = 3 ∧
    (feed (clear (set_default (construct_default ⟨0, 0, 0, 0⟩ (-128) 127) 5 3)) [10]).m_max
      = 10 ∧
    ¬ holdsExtremes
      (feed (clear (set_default (construct_default ⟨0, 0, 0, 0⟩ (-128) 127) 5 3)) [10]) [10] :=
  ⟨by decide, by decide, fun h => absurd h.1 (by decide)⟩

/-- Claim C15, amended: on a default-constructed tracker over an integer type
with values `lo .. hi`, and on any tracker right after `clear()` whose stored
defaults are those the default constructor set (`set_default` has not
replaced them; in particular whatever was fed to it before), applying
`operator|=` to each element of a non-empty list of values of the type leaves
`m_min` equal to the minimum of the list and `m_max` equal to its maximum. -/
theorem feed_holds_extremes (junk : minmax) (lo hi : Int) (xs : List Int)
    (hne : xs ≠ []) (hr : ∀ v ∈ xs, lo ≤ v ∧ v ≤ hi) :
    holdsExtremes (feed (construct_default junk lo hi) xs) xs ∧
    (∀ x : minmax, x.m_dmin = hi → x.m_dmax = lo →
      holdsExtremes (feed (clear x) xs) xs) ∧
    ∀ ys : List Int,
      holdsExtremes (feed (clear (feed (construct_default junk lo hi) ys)) xs) xs := by
  refine ⟨?_, ?_, ?_⟩
  · exact feed_after_clear (set_default junk lo hi) lo hi xs rfl rfl hne hr
  · intro x h1 h2
    exact feed_after_clear x lo hi xs h1 h2 hne hr
  · intro ys
    obtain ⟨-, -, -, -, -, h6, h7⟩ := feed_bounds (construct_default junk lo hi) ys
    exact feed_after_clear _ lo hi xs h6 h7 hne hr

/-- Claim C15, amended, at a concrete input: an 8-bit signed tracker fed
3, -5, 7. -/
theorem feed_holds_extremes_witness :
    (([3, -5, 7] : List Int) ≠ [] ∧ (∀ v ∈ ([3, -5, 7] : List Int), -128 ≤ v ∧ v ≤ 127) ∧
      (feed (construct_default ⟨0, 0, 0, 0⟩ (-128) 127) [3, -5, 7]).m_min = -5 ∧
      (feed (construct_default ⟨0, 0, 0, 0⟩ (-128) 127) [3, -5, 7]).m_max = 7) ∧
    (holdsExtremes (feed (construct_default ⟨0, 0, 0, 0⟩ (-128) 127) [3, -5, 7]) [3, -5, 7] ∧
    (∀ x : minmax, x.m_dmin = 127 → x.m_dmax = -128 →
      holdsExtremes (feed (clear x) [3, -5, 7]) [3, -5, 7]) ∧
    ∀ ys : List Int,
      holdsExtremes
        (feed (clear (feed (construct_default ⟨0, 0, 0, 0⟩ (-128) 127) ys)) [3, -5, 7])
        [3, -5, 7]) :=
  ⟨by decide,
    feed_holds_extremes ⟨0, 0, 0, 0⟩ (-128) 127 [3, -5, 7] (by decide) (by decide)⟩

end MinMax
